import Mathlib

/-!
# TecnicoFS transport layer: session table, dispatch loop and client stubs

A shallow embedding of `src/fs/tfs_server.c` and `src/tecnicofs_client_api.c`, and the
properties of the specification stated on it.

Conventions of the embedding.

* A `char` is a `Byte` (`Fin 256`); a `char[40]` array is a `Slot`
  (`Fin 40 → Byte`); the global `session_ids[S][40]` is a `SessionTable`.
* The data model is LP64: `sizeof(int) = 4`, and `sizeof(size_t)`,
  `sizeof(ssize_t)` and the size of every pointer are `8`; integers travel
  little-endian, in two's complement.
* A pipe is the list of the bytes pending in it.  `read(fd, buf, n)` moves
  the first `min n available` bytes into `buf`; the sources never look at
  its return value, so a short read leaves the rest of `buf` as it was.
  Reading a scalar whose variable is uninitialised (`int id; read(...)`)
  from fewer bytes than its width leaves it indeterminate: the embedding
  answers `none` there.
* Behaviour that C leaves undefined (an index outside `session_ids`, a
  `strcpy` or `open` running past the end of a 40-byte array with no NUL in
  it) is `none` as well.
* A reply of the server is the pair of the path it hands to
  `open(path, O_WRONLY)` and the bytes it hands to the `write` on the
  descriptor so obtained, before closing it.  Whether a pipe exists at that
  path is up to the environment and is not modelled.
* The filesystem engine (`operations.h`) and the operation codes are not part
  of the sources: they are parameters of the embedding.
* A client stub that waits in `read` for a reply that never comes returns no
  value: its result is `none`, next to the state it has reached.
-/

namespace TecnicoFS

/-! ## Bytes, scalars and C strings -/

/-- A `char`. -/
abbrev Byte := Fin 256

/-- The literal `40`, the length of every pipe-name and file-name array. -/
abbrev NAME_SIZE : Nat := 40

/-- A `char[40]` array. -/
abbrev Slot := Fin NAME_SIZE → Byte

/-- The array `{0}`. -/
def zeroSlot : Slot := fun _ => 0

/-- The value of `sizeof(int)`. -/
abbrev SIZEOF_INT : Nat := 4

/-- The value of `sizeof(size_t)`, `sizeof(ssize_t)` and of the size of a pointer. -/
abbrev SIZEOF_SIZE_T : Nat := 8

/-- The `n` low bytes of `u`, least significant first. -/
def leBytes : Nat → Nat → List Byte
  | 0, _ => []
  | n + 1, u => ⟨u % 256, Nat.mod_lt _ (by decide)⟩ :: leBytes n (u / 256)

/-- The number whose little-endian bytes are `bs`. -/
def leValue : List Byte → Nat
  | [] => 0
  | b :: bs => b.val + 256 * leValue bs

/-- The object representation of an `int`. -/
def encodeInt (v : Int) : List Byte := leBytes SIZEOF_INT (v % 2 ^ 32).toNat

/-- The `int` whose object representation is `bs` (four bytes). -/
def decodeInt (bs : List Byte) : Int :=
  if leValue bs < 2 ^ 31 then (leValue bs : Int) else (leValue bs : Int) - 2 ^ 32

/-- The object representation of a `size_t` or of a pointer. -/
def encodeSize (v : Nat) : List Byte := leBytes SIZEOF_SIZE_T (v % 2 ^ 64)

/-- The `size_t` or pointer whose object representation is `bs` (eight bytes). -/
def decodeSize (bs : List Byte) : Nat := leValue bs

/-- The object representation of an `ssize_t`. -/
def encodeSSize (v : Int) : List Byte := leBytes SIZEOF_SIZE_T (v % 2 ^ 64).toNat

/-- The `ssize_t` whose object representation is `bs` (eight bytes). -/
def decodeSSize (bs : List Byte) : Int :=
  if leValue bs < 2 ^ 63 then (leValue bs : Int) else (leValue bs : Int) - 2 ^ 64

/-- The position of the first NUL of a 40-byte array, when it has one. -/
def nulIndex (a : Slot) : Option (Fin NAME_SIZE) :=
  Fin.find (fun j => a j = 0)

/-- The 40 bytes of an array, in order. -/
def slotBytes (a : Slot) : List Byte := List.ofFn a

/-- The string a 40-byte array holds: its bytes before the first NUL.  With no NUL
in the array a reader of the string runs past its end. -/
def cstr (a : Slot) : Option (List Byte) :=
  match nulIndex a with
  | none => none
  | some n => some ((slotBytes a).take n.val)

/-- The call `strcpy(dst, src)` on two 40-byte arrays: the bytes of `src` up to and
including its first NUL overwrite the start of `dst`, whose later bytes stay. -/
def strcpy (dst src : Slot) : Option Slot :=
  match nulIndex src with
  | none => none
  | some n => some (fun j => if j ≤ n then src j else dst j)

/-- A `char[40] = {0}` array after `read(fd, array, 40)` on a pipe holding `pipe`. -/
def readArray (pipe : List Byte) : Slot × List Byte :=
  (fun j => (pipe.take NAME_SIZE).getD j.val 0, pipe.drop NAME_SIZE)

/-- An uninitialised `int` after `read(fd, &v, sizeof(int))`. -/
def readInt (pipe : List Byte) : Option (Int × List Byte) :=
  if SIZEOF_INT ≤ pipe.length then
    some (decodeInt (pipe.take SIZEOF_INT), pipe.drop SIZEOF_INT)
  else none

/-- An uninitialised `size_t` or pointer after `read(fd, &v, sizeof(size_t))`. -/
def readSize (pipe : List Byte) : Option (Nat × List Byte) :=
  if SIZEOF_SIZE_T ≤ pipe.length then
    some (decodeSize (pipe.take SIZEOF_SIZE_T), pipe.drop SIZEOF_SIZE_T)
  else none

/-- An uninitialised `ssize_t` after `read(fd, &v, sizeof(ssize_t))`. -/
def readSSize (pipe : List Byte) : Option (Int × List Byte) :=
  if SIZEOF_SIZE_T ≤ pipe.length then
    some (decodeSSize (pipe.take SIZEOF_SIZE_T), pipe.drop SIZEOF_SIZE_T)
  else none

/-! ## The server: `src/fs/tfs_server.c` -/

/-- The macro `S`: the maximum number of simultaneously active sessions. -/
abbrev S : Nat := 20

/-- The global `char session_ids[S][40]`. -/
abbrev SessionTable := Fin S → Slot

/-- The initial value `{0}` of `session_ids`. -/
def emptyTable : SessionTable := fun _ => zeroSlot

/-- The loop of `get_session_id`, from index `i`, with `n` iterations left to run. -/
def get_session_id_loop (session_ids : SessionTable) : Nat → Nat → Int
  | 0, _ => -1
  | n + 1, i =>
    if h : i < S then
      if session_ids ⟨i, h⟩ 0 = 0 then (i : Int)
      else get_session_id_loop session_ids n (i + 1)
    else -1

/-- The function `get_session_id`: the loop runs from `0` for at most `S` iterations. -/
def get_session_id (session_ids : SessionTable) : Int :=
  get_session_id_loop session_ids S 0

/-- The index `session_ids[id]` denotes, when `id` lies inside the array. -/
def slotIndex (id : Int) : Option (Fin S) :=
  if h : 0 ≤ id ∧ id < (S : Int) then some ⟨id.toNat, by omega⟩ else none

/-- Modelled from the spec: the operation codes `TFS_OP_CODE_*`, whose header is
missing from the sources.  The spec calls them an enumeration of `MOUNT, UNMOUNT,
OPEN, CLOSE, WRITE, READ, SHUTDOWN_AFTER_ALL_CLOSED`: seven distinct `int`
constants, whose values are left open here. -/
structure OpCodes where
  TFS_OP_CODE_MOUNT : Int
  TFS_OP_CODE_UNMOUNT : Int
  TFS_OP_CODE_OPEN : Int
  TFS_OP_CODE_CLOSE : Int
  TFS_OP_CODE_WRITE : Int
  TFS_OP_CODE_READ : Int
  TFS_OP_CODE_SHUTDOWN_AFTER_ALL_CLOSED : Int
  distinct : [TFS_OP_CODE_MOUNT, TFS_OP_CODE_UNMOUNT, TFS_OP_CODE_OPEN, TFS_OP_CODE_CLOSE,
    TFS_OP_CODE_WRITE, TFS_OP_CODE_READ, TFS_OP_CODE_SHUTDOWN_AFTER_ALL_CLOSED].Nodup
  in_range : ∀ c ∈ [TFS_OP_CODE_MOUNT, TFS_OP_CODE_UNMOUNT, TFS_OP_CODE_OPEN,
    TFS_OP_CODE_CLOSE, TFS_OP_CODE_WRITE, TFS_OP_CODE_READ,
    TFS_OP_CODE_SHUTDOWN_AFTER_ALL_CLOSED], -2 ^ 31 ≤ c ∧ c < 2 ^ 31

/-- The numbering `1, ..., 7` of the operation codes, used for concrete runs. -/
def opCodes1to7 : OpCodes where
  TFS_OP_CODE_MOUNT := 1
  TFS_OP_CODE_UNMOUNT := 2
  TFS_OP_CODE_OPEN := 3
  TFS_OP_CODE_CLOSE := 4
  TFS_OP_CODE_WRITE := 5
  TFS_OP_CODE_READ := 6
  TFS_OP_CODE_SHUTDOWN_AFTER_ALL_CLOSED := 7
  distinct := by decide
  in_range := by decide

/-- Modelled from the spec: the filesystem engine of `operations.h`, missing from the
sources, with the five signatures of the spec's collaborator interface.  Its state is
`σ`; every call returns the new state and the result.  A file name reaches it as the
40-byte array of the handler, a buffer as the pointer value of the handler. -/
structure Engine (σ : Type) where
  tfs_open : σ → Slot → Int → σ × Int
  tfs_close : σ → Int → σ × Int
  tfs_write : σ → Int → Nat → Nat → σ × Int
  tfs_read : σ → Int → Nat → Nat → σ × Int
  tfs_destroy_after_all_closed : σ → σ × Int

/-- The state of the server process: the global `session_ids`, the bytes pending in
the pipe behind the global descriptor `rx`, and the state of the filesystem engine. -/
structure Server (σ : Type) where
  session_ids : SessionTable
  rx : List Byte
  fs : σ

/-- One reply: the path given to `open(path, O_WRONLY)` and the bytes given to the one
`write` on the descriptor, which is closed right after. -/
structure Reply where
  path : List Byte
  data : List Byte
deriving DecidableEq

/-- The function `tfs_mount_handler`. -/
def tfs_mount_handler {σ : Type} (s : Server σ) : Option (Server σ × List Reply) :=
  -- char client_pipename[40] = {0}; read(rx, &client_pipename, sizeof(client_pipename));
  let (client_pipename, rx1) := readArray s.rx
  -- int tx = open(client_pipename, O_WRONLY);
  match cstr client_pipename with
  | none => none
  | some tx =>
    let id := get_session_id s.session_ids
    if id = -1 then
      -- write(tx, &id, sizeof(id));
      some ({ s with rx := rx1 }, [⟨tx, encodeInt id⟩])
    else
      match slotIndex id with
      | none => none
      | some k =>
        -- strcpy(session_ids[id], client_pipename);
        match strcpy (s.session_ids k) client_pipename with
        | none => none
        | some slot =>
          -- write(tx, &id, sizeof(id));
          some ({ s with session_ids := Function.update s.session_ids k slot, rx := rx1 },
            [⟨tx, encodeInt id⟩])

/-- The function `tfs_unmount_handler`: it opens no pipe and writes no reply. -/
def tfs_unmount_handler {σ : Type} (s : Server σ) : Option (Server σ × List Reply) :=
  -- int id; read(rx, &id, sizeof(id));
  match readInt s.rx with
  | none => none
  | some (id, rx1) =>
    match slotIndex id with
    | none => none
    | some k =>
      -- session_ids[id][0] = '\0';
      some ({ s with
        session_ids := Function.update s.session_ids k (Function.update (s.session_ids k) 0 0),
        rx := rx1 }, [])

/-- The common start of the five other handlers: `int id; read(rx, &id, sizeof(id));
char client_pipename[40] = {0}; strcpy(client_pipename, session_ids[id]);
int tx = open(client_pipename, O_WRONLY);`.  It gives the path opened and the bytes
left in the pipe. -/
def openClientPipe {σ : Type} (s : Server σ) : Option (List Byte × List Byte) :=
  match readInt s.rx with
  | none => none
  | some (id, rx1) =>
    match slotIndex id with
    | none => none
    | some k =>
      match strcpy zeroSlot (s.session_ids k) with
      | none => none
      | some client_pipename =>
        match cstr client_pipename with
        | none => none
        | some tx => some (tx, rx1)

/-- The function `tfs_open_handler`. -/
def tfs_open_handler {σ : Type} (E : Engine σ) (s : Server σ) :
    Option (Server σ × List Reply) :=
  match openClientPipe s with
  | none => none
  | some (tx, rx1) =>
    -- char filename[40] = {0}; read(rx, filename, sizeof(filename));
    let (filename, rx2) := readArray rx1
    -- int flags; read(rx, &flags, sizeof(flags));
    match readInt rx2 with
    | none => none
    | some (flags, rx3) =>
      -- int res = tfs_open(filename, flags); write(tx, &res, sizeof(res));
      let (fs1, res) := E.tfs_open s.fs filename flags
      some ({ s with rx := rx3, fs := fs1 }, [⟨tx, encodeInt res⟩])

/-- The function `tfs_close_handler`. -/
def tfs_close_handler {σ : Type} (E : Engine σ) (s : Server σ) :
    Option (Server σ × List Reply) :=
  match openClientPipe s with
  | none => none
  | some (tx, rx1) =>
    -- int fhandle; read(rx, &fhandle, sizeof(fhandle));
    match readInt rx1 with
    | none => none
    | some (fhandle, rx2) =>
      -- int res = tfs_close(fhandle); write(tx, &res, sizeof(res));
      let (fs1, res) := E.tfs_close s.fs fhandle
      some ({ s with rx := rx2, fs := fs1 }, [⟨tx, encodeInt res⟩])

/-- The function `tfs_write_handler`: the eight bytes after `len` are read into the
pointer `buffer` itself, and that pointer goes to the engine. -/
def tfs_write_handler {σ : Type} (E : Engine σ) (s : Server σ) :
    Option (Server σ × List Reply) :=
  match openClientPipe s with
  | none => none
  | some (tx, rx1) =>
    -- int fhandle; read(rx, &fhandle, sizeof(fhandle));
    match readInt rx1 with
    | none => none
    | some (fhandle, rx2) =>
      -- size_t len; read(rx, &len, sizeof(len));
      match readSize rx2 with
      | none => none
      | some (len, rx3) =>
        -- void *buffer; read(rx, &buffer, sizeof(len));
        match readSize rx3 with
        | none => none
        | some (buffer, rx4) =>
          -- ssize_t res = tfs_write(fhandle, buffer, len); write(tx, &res, sizeof(res));
          let (fs1, res) := E.tfs_write s.fs fhandle buffer len
          some ({ s with rx := rx4, fs := fs1 }, [⟨tx, encodeSSize res⟩])

/-- The function `tfs_read_handler`. -/
def tfs_read_handler {σ : Type} (E : Engine σ) (s : Server σ) :
    Option (Server σ × List Reply) :=
  match openClientPipe s with
  | none => none
  | some (tx, rx1) =>
    -- int fhandle; read(rx, &fhandle, sizeof(fhandle));
    match readInt rx1 with
    | none => none
    | some (fhandle, rx2) =>
      -- size_t len; read(rx, &len, sizeof(len));
      match readSize rx2 with
      | none => none
      | some (len, rx3) =>
        -- void *buffer; read(rx, &buffer, sizeof(len));
        match readSize rx3 with
        | none => none
        | some (buffer, rx4) =>
          -- ssize_t res = tfs_read(fhandle, buffer, len); write(tx, &res, sizeof(res));
          let (fs1, res) := E.tfs_read s.fs fhandle buffer len
          some ({ s with rx := rx4, fs := fs1 }, [⟨tx, encodeSSize res⟩])

/-- The function `tfs_shutdown_after_all_closed_handler`. -/
def tfs_shutdown_after_all_closed_handler {σ : Type} (E : Engine σ) (s : Server σ) :
    Option (Server σ × List Reply) :=
  match openClientPipe s with
  | none => none
  | some (tx, rx1) =>
    -- int res = tfs_destroy_after_all_closed(); write(tx, &res, sizeof(res));
    let (fs1, res) := E.tfs_destroy_after_all_closed s.fs
    some ({ s with rx := rx1, fs := fs1 }, [⟨tx, encodeInt res⟩])

/-- One iteration of the `while (true)` loop of `main`. -/
def main_loop_iteration {σ : Type} (oc : OpCodes) (E : Engine σ) (s : Server σ) :
    Option (Server σ × List Reply) :=
  -- int op_code; read(rx, &op_code, sizeof(op_code));
  match readInt s.rx with
  | none => none
  | some (op_code, rx1) =>
    let s1 : Server σ := { s with rx := rx1 }
    if op_code = oc.TFS_OP_CODE_MOUNT then tfs_mount_handler s1
    else if op_code = oc.TFS_OP_CODE_UNMOUNT then tfs_unmount_handler s1
    else if op_code = oc.TFS_OP_CODE_OPEN then tfs_open_handler E s1
    else if op_code = oc.TFS_OP_CODE_CLOSE then tfs_close_handler E s1
    else if op_code = oc.TFS_OP_CODE_WRITE then tfs_write_handler E s1
    else if op_code = oc.TFS_OP_CODE_READ then tfs_read_handler E s1
    else if op_code = oc.TFS_OP_CODE_SHUTDOWN_AFTER_ALL_CLOSED then
      tfs_shutdown_after_all_closed_handler E s1
    else some (s1, [])

/-! ## The client: `src/tecnicofs_client_api.c` -/

/-- The state of a client process: the globals `session_id` and `pipename`; whether
the global `rx` is a descriptor open on the client's reply pipe and `tx` one open on
the server's pipe; the bytes the client has written into the server's pipe so far;
and the bytes on their way to it in its reply pipe. -/
structure Client where
  session_id : Int
  pipename : Slot
  rx_open : Bool
  tx_open : Bool
  to_server : List Byte
  from_server : List Byte

/-- The client before any call: `session_id = -1`, `pipename = {0}`, and `rx = tx = 0`,
which are not descriptors of either pipe. -/
def Client.init : Client :=
  { session_id := -1, pipename := zeroSlot, rx_open := false, tx_open := false,
    to_server := [], from_server := [] }

/-- The call `write(tx, data, n)`: the bytes reach the server's pipe when `tx` is open
on it, and nothing reaches it otherwise. -/
def Client.write_tx (c : Client) (data : List Byte) : Client :=
  if c.tx_open then { c with to_server := c.to_server ++ data } else c

/-- The `n` bytes of memory a pointer points to, `mem k` being the byte at offset `k`. -/
def memBytes (mem : Nat → Byte) (n : Nat) : List Byte := (List.range n).map mem

/-- The call `read(rx, &v, sizeof(int))` of a stub, which blocks until the reply is
there: `none` when the bytes never come, or when `rx` is not open on the reply pipe and
the outcome is that of some other descriptor. -/
def Client.read_rx_int (c : Client) : Option (Int × Client) :=
  if c.rx_open then
    match readInt c.from_server with
    | none => none
    | some (v, rest) => some (v, { c with from_server := rest })
  else none

/-- The call `read(rx, &v, sizeof(ssize_t))` of a stub, as `Client.read_rx_int`. -/
def Client.read_rx_ssize (c : Client) : Option (Int × Client) :=
  if c.rx_open then
    match readSSize c.from_server with
    | none => none
    | some (v, rest) => some (v, { c with from_server := rest })
  else none

/-- What the system calls at the start of `tfs_mount` answer. -/
structure MountEnv where
  /-- Whether `unlink(client_pipe_path) != 0 && errno != ENOENT`. -/
  unlink_failed : Bool
  /-- Whether `mkfifo(client_pipe_path, 0640) == 0`. -/
  mkfifo_ok : Bool
  /-- Whether `open(client_pipe_path, O_RDONLY) != -1`. -/
  open_rx_ok : Bool
  /-- Whether `open(server_pipe_path, O_WRONLY) != -1`. -/
  open_tx_ok : Bool

/-- The 40-byte array holding the string `p` followed by NULs. -/
def slotOfString (p : List Byte) : Slot := fun j => p.getD j.val 0

/-- The function `tfs_mount`.  `client_pipe_path` is the value of the pointer argument
and `path` the string it points to.  The result is `none` when `strcpy` overruns
`pipename`; otherwise it is the client afterwards and the value returned, `none` when
the call stays blocked in `read`. -/
def tfs_mount (oc : OpCodes) (env : MountEnv) (c : Client) (client_pipe_path : Nat)
    (path : List Byte) : Option (Client × Option Int) :=
  if env.unlink_failed then some (c, some (-1))
  else if NAME_SIZE ≤ path.length then none
  else
    -- strcpy(pipename, client_pipe_path);
    match strcpy c.pipename (slotOfString path) with
    | none => none
    | some copied =>
      let c1 : Client := { c with pipename := copied }
      if !env.mkfifo_ok then some (c1, some (-1))
      -- rx = open(client_pipe_path, O_RDONLY);
      else if !env.open_rx_ok then some ({ c1 with rx_open := false }, some (-1))
      else
        let c2 : Client := { c1 with rx_open := true }
        -- tx = open(server_pipe_path, O_WRONLY);
        if !env.open_tx_ok then some ({ c2 with tx_open := false }, some (-1))
        else
          let c3 : Client := { c2 with tx_open := true }
          -- write(tx, &op_code, sizeof(op_code));
          let c4 := c3.write_tx (encodeInt oc.TFS_OP_CODE_MOUNT)
          -- write(tx, &client_pipe_path, sizeof(client_pipe_path));
          let c5 := c4.write_tx (encodeSize client_pipe_path)
          -- read(rx, &session_id, sizeof(session_id));
          match c5.read_rx_int with
          | none => some (c5, none)
          | some (v, c6) =>
            let c7 : Client := { c6 with session_id := v }
            if v = -1 then some (c7, some (-1)) else some (c7, some 0)

/-- The function `tfs_unmount`. -/
def tfs_unmount (oc : OpCodes) (c : Client) : Client × Int :=
  if c.session_id = -1 then (c, -1)
  else
    -- write(tx, &op_code, sizeof(op_code)); write(tx, &session_id, sizeof(session_id));
    let c1 := c.write_tx (encodeInt oc.TFS_OP_CODE_UNMOUNT)
    let c2 := c1.write_tx (encodeInt c1.session_id)
    -- close(rx); close(tx); unlink(pipename); session_id = -1;
    ({ c2 with rx_open := false, tx_open := false, session_id := -1 }, 0)

/-- The function `tfs_open`; `name` is the memory the pointer argument points to. -/
def tfs_open (oc : OpCodes) (c : Client) (name : Nat → Byte) (flags : Int) :
    Client × Option Int :=
  let c1 := c.write_tx (encodeInt oc.TFS_OP_CODE_OPEN)
  let c2 := c1.write_tx (encodeInt c1.session_id)
  -- write(tx, name, sizeof(name));
  let c3 := c2.write_tx (memBytes name SIZEOF_SIZE_T)
  let c4 := c3.write_tx (encodeInt flags)
  -- int res; read(rx, &res, sizeof(res));
  match c4.read_rx_int with
  | none => (c4, none)
  | some (res, c5) => if res = -1 then (c5, some (-1)) else (c5, some 0)

/-- The function `tfs_close`. -/
def tfs_close (oc : OpCodes) (c : Client) (fhandle : Int) : Client × Option Int :=
  let c1 := c.write_tx (encodeInt oc.TFS_OP_CODE_CLOSE)
  let c2 := c1.write_tx (encodeInt c1.session_id)
  let c3 := c2.write_tx (encodeInt fhandle)
  -- int res; read(rx, &res, sizeof(res));
  match c3.read_rx_int with
  | none => (c3, none)
  | some (res, c4) => if res = -1 then (c4, some (-1)) else (c4, some 0)

/-- The function `tfs_write`; `buffer` is the memory the pointer argument points to. -/
def tfs_write (oc : OpCodes) (c : Client) (fhandle : Int) (buffer : Nat → Byte) (len : Nat) :
    Client × Option Int :=
  let c1 := c.write_tx (encodeInt oc.TFS_OP_CODE_WRITE)
  let c2 := c1.write_tx (encodeInt c1.session_id)
  let c3 := c2.write_tx (encodeInt fhandle)
  let c4 := c3.write_tx (encodeSize len)
  -- write(tx, buffer, sizeof(len));
  let c5 := c4.write_tx (memBytes buffer SIZEOF_SIZE_T)
  -- ssize_t written; read(rx, &written, sizeof(written));
  match c5.read_rx_ssize with
  | none => (c5, none)
  | some (written, c6) => if written = -1 then (c6, some (-1)) else (c6, some written)

/-- The function `tfs_read`; `buffer` is the memory the pointer argument points to. -/
def tfs_read (oc : OpCodes) (c : Client) (fhandle : Int) (buffer : Nat → Byte) (len : Nat) :
    Client × Option Int :=
  let c1 := c.write_tx (encodeInt oc.TFS_OP_CODE_READ)
  let c2 := c1.write_tx (encodeInt c1.session_id)
  let c3 := c2.write_tx (encodeInt fhandle)
  let c4 := c3.write_tx (encodeSize len)
  -- write(tx, buffer, sizeof(len));
  let c5 := c4.write_tx (memBytes buffer SIZEOF_SIZE_T)
  -- ssize_t res; read(rx, &res, sizeof(res));
  match c5.read_rx_ssize with
  | none => (c5, none)
  | some (res, c6) => if res = -1 then (c6, some (-1)) else (c6, some res)

/-- The function `tfs_shutdown_after_all_closed`. -/
def tfs_shutdown_after_all_closed (oc : OpCodes) (c : Client) : Client × Option Int :=
  let c1 := c.write_tx (encodeInt oc.TFS_OP_CODE_SHUTDOWN_AFTER_ALL_CLOSED)
  let c2 := c1.write_tx (encodeInt c1.session_id)
  -- int res; read(rx, &res, sizeof(res));
  match c2.read_rx_int with
  | none => (c2, none)
  | some (res, c3) => if res = -1 then (c3, some (-1)) else (c3, some 0)

/-! ## Requests, runs and the notions the properties are stated with -/

/-- The array holds a string: one of its 40 bytes is NUL. -/
def HasNul (a : Slot) : Prop := ∃ j : Fin NAME_SIZE, a j = 0

instance (a : Slot) : Decidable (HasNul a) :=
  decidable_of_iff ((nulIndex a).isSome = true) Fin.isSome_find_iff

/-- The array holds a reply-channel address: a string that is not empty. -/
def IsAddress (a : Slot) : Prop := a 0 ≠ 0 ∧ HasNul a

instance (a : Slot) : Decidable (IsAddress a) := by
  unfold IsAddress; infer_instance

/-- The bytes of consecutive MOUNT requests as `tfs_mount_handler` reads them: one
40-byte pipe name each. -/
def mountRequests : List Slot → List Byte
  | [] => []
  | a :: rest => slotBytes a ++ mountRequests rest

/-- The server runs `tfs_mount_handler` `n` times in a row; the replies are collected
in order. -/
def mountTimes {σ : Type} : Nat → Server σ → Option (Server σ × List Reply)
  | 0, s => some (s, [])
  | n + 1, s =>
    match tfs_mount_handler s with
    | none => none
    | some (s1, r1) =>
      match mountTimes n s1 with
      | none => none
      | some (s2, r2) => some (s2, r1 ++ r2)

/-- A request, with the fields the handler of its operation reads after the op code. -/
inductive Request where
  | MOUNT (client_pipename : Slot)
  | UNMOUNT (id : Int)
  | OPEN (id : Int) (filename : Slot) (flags : Int)
  | CLOSE (id : Int) (fhandle : Int)
  | WRITE (id : Int) (fhandle : Int) (len : Nat) (buffer : Nat)
  | READ (id : Int) (fhandle : Int) (len : Nat) (buffer : Nat)
  | SHUTDOWN_AFTER_ALL_CLOSED (id : Int)

/-- The bytes of a request in the pipe, in the layout the server reads: the op code,
then each field at the width of the `read` that fetches it. -/
def Request.bytes (oc : OpCodes) : Request → List Byte
  | .MOUNT client_pipename => encodeInt oc.TFS_OP_CODE_MOUNT ++ slotBytes client_pipename
  | .UNMOUNT id => encodeInt oc.TFS_OP_CODE_UNMOUNT ++ encodeInt id
  | .OPEN id filename flags =>
    encodeInt oc.TFS_OP_CODE_OPEN ++ encodeInt id ++ slotBytes filename ++ encodeInt flags
  | .CLOSE id fhandle => encodeInt oc.TFS_OP_CODE_CLOSE ++ encodeInt id ++ encodeInt fhandle
  | .WRITE id fhandle len buffer =>
    encodeInt oc.TFS_OP_CODE_WRITE ++ encodeInt id ++ encodeInt fhandle ++ encodeSize len ++
      encodeSize buffer
  | .READ id fhandle len buffer =>
    encodeInt oc.TFS_OP_CODE_READ ++ encodeInt id ++ encodeInt fhandle ++ encodeSize len ++
      encodeSize buffer
  | .SHUTDOWN_AFTER_ALL_CLOSED id =>
    encodeInt oc.TFS_OP_CODE_SHUTDOWN_AFTER_ALL_CLOSED ++ encodeInt id

/-- The session id a request carries; a MOUNT request carries none. -/
def Request.session_id : Request → Option Int
  | .MOUNT _ => none
  | .UNMOUNT id => some id
  | .OPEN id _ _ => some id
  | .CLOSE id _ => some id
  | .WRITE id _ _ _ => some id
  | .READ id _ _ _ => some id
  | .SHUTDOWN_AFTER_ALL_CLOSED id => some id

/-- Whether the request is an UNMOUNT. -/
def Request.isUnmount : Request → Bool
  | .UNMOUNT _ => true
  | _ => false

/-- The server handles one request: its bytes arrive in the server's pipe and the loop
of `main` runs one iteration. -/
def serve {σ : Type} (oc : OpCodes) (E : Engine σ) (s : Server σ) (r : Request) :
    Option (Server σ × List Reply) :=
  main_loop_iteration oc E { s with rx := s.rx ++ r.bytes oc }

/-- The session ids active after a request, given those active before it, newest first.
A MOUNT is successful, and starts a session, when an id other than `-1` is answered on a
path that is not empty: `open` of the empty path returns `-1`, the `write` on that
descriptor delivers nothing, and no client holds the id.  An UNMOUNT ends one session
of its id. -/
def sessionsStep (act : List Int) (r : Request) (replies : List Reply) : List Int :=
  match r with
  | .MOUNT _ =>
    match replies with
    | [reply] =>
      if reply.path = [] then act
      else if decodeInt reply.data = -1 then act
      else decodeInt reply.data :: act
    | _ => act
  | .UNMOUNT id => act.erase id
  | _ => act

/-- The server handles the requests in order, from state `s` with the sessions `act`
active: the state reached and the sessions active at the end. -/
def sessionsAfter {σ : Type} (oc : OpCodes) (E : Engine σ) :
    List Request → Server σ → List Int → Option (Server σ × List Int)
  | [], s, act => some (s, act)
  | r :: rs, s, act =>
    match serve oc E s r with
    | none => none
    | some (s1, replies) => sessionsAfter oc E rs s1 (sessionsStep act r replies)

/-- Whether a sequence is made of MOUNT requests, with any address field, and of UNMOUNT
requests, each for the id of a session active when it is handled. -/
def admissible {σ : Type} (oc : OpCodes) (E : Engine σ) :
    List Request → Server σ → List Int → Bool
  | [], _, _ => true
  | r :: rs, s, act =>
    (match r with
      | .MOUNT _ => true
      | .UNMOUNT id => decide (id ∈ act)
      | _ => false) &&
    (match serve oc E s r with
      | none => true
      | some (s1, replies) => admissible oc E rs s1 (sessionsStep act r replies))

/-- Whether a request, when it is a MOUNT, carries a string, empty or not, in its 40-byte
address field. -/
def Request.mountsString : Request → Prop
  | .MOUNT client_pipename => HasNul client_pipename
  | _ => True

instance (r : Request) : Decidable r.mountsString := by
  cases r <;> (unfold Request.mountsString; infer_instance)

/-- The address `tfs_mount_handler` stores when the server, with an empty session
table, handles the MOUNT request that `tfs_mount` writes for the string `path` held
at the pointer value `client_pipe_path`. -/
def mountedAddress {σ : Type} (oc : OpCodes) (E : Engine σ) (fs : σ) (env : MountEnv)
    (client_pipe_path : Nat) (path : List Byte) : Option (List Byte) :=
  match tfs_mount oc env Client.init client_pipe_path path with
  | none => none
  | some (c, _) =>
    match main_loop_iteration oc E ⟨emptyTable, c.to_server, fs⟩ with
    | none => none
    | some (s, _) =>
      match slotIndex (get_session_id emptyTable) with
      | none => none
      | some k => cstr (s.session_ids k)

/-- An engine without state whose calls all return `0`. -/
def nullEngine : Engine Unit where
  tfs_open := fun _ _ _ => ((), 0)
  tfs_close := fun _ _ => ((), 0)
  tfs_write := fun _ _ _ _ => ((), 0)
  tfs_read := fun _ _ _ _ => ((), 0)
  tfs_destroy_after_all_closed := fun _ => ((), 0)

/-- An engine whose state is the log of the `(fhandle, buffer, len)` it was given by
`tfs_write`, and whose `tfs_write` returns `len`. -/
def loggingEngine : Engine (List (Int × Nat × Nat)) where
  tfs_open := fun log _ _ => (log, 0)
  tfs_close := fun log _ => (log, 0)
  tfs_write := fun log fhandle buffer len => (log ++ [(fhandle, buffer, len)], (len : Int))
  tfs_read := fun log _ _ _ => (log, 0)
  tfs_destroy_after_all_closed := fun log => (log, 0)

/-- The bytes of an ASCII string. -/
def ascii (s : String) : List Byte :=
  s.toList.map fun ch => ⟨ch.toNat % 256, Nat.mod_lt _ (by decide)⟩

/-- The answers `k, k + 1, ...` to `n` successive mounts, as bytes. -/
def idReplies : Nat → Nat → List (List Byte)
  | _, 0 => []
  | k, n + 1 => encodeInt (Int.ofNat k) :: idReplies (k + 1) n

/-- The slots below `k` are occupied and the others free. -/
def FilledTo (k : Nat) (t : SessionTable) : Prop :=
  ∀ j : Fin S, (j.val < k → t j 0 ≠ 0) ∧ (k ≤ j.val → t j 0 = 0)

/-- The address `/cA`, `/cB`, ... of the demo client number `i`. -/
def demoAddress (i : Nat) : Slot := slotOfString [47, 99, Fin.ofNat (65 + i)]

/-- Twenty demo addresses. -/
def demoAddresses : List Slot := (List.range S).map demoAddress

/-- A session table whose twenty slots hold the demo addresses. -/
def demoFullTable : SessionTable := fun i => demoAddress i.val

/-- A session table whose slot 0 holds the address `/cA`, the other slots free. -/
def demoTable : SessionTable := Function.update emptyTable 0 (demoAddress 0)

/-- The link between the session table and the sessions active: no id is active twice,
the active ids are indices of occupied slots, and every occupied slot is active. -/
def SessionsInv (t : SessionTable) (act : List Int) : Prop :=
  act.Nodup ∧ (∀ id ∈ act, ∃ k : Fin S, id = (k.val : Int) ∧ t k 0 ≠ 0) ∧
    ∀ k : Fin S, t k 0 ≠ 0 → (k.val : Int) ∈ act

/-- The requests of the demo run: `/cA` mounts, two requests with an all-NUL address
field follow, `/cB` and `/cC` mount, session 1 unmounts, `/cD` mounts. -/
def demoRequests : List Request :=
  [Request.MOUNT (demoAddress 0), Request.MOUNT zeroSlot, Request.MOUNT zeroSlot,
    Request.MOUNT (demoAddress 1), Request.MOUNT (demoAddress 2), Request.UNMOUNT 1,
    Request.MOUNT (demoAddress 3)]

/-- System calls that all succeed at the start of `tfs_mount`. -/
def okEnv : MountEnv :=
  { unlink_failed := false, mkfifo_ok := true, open_rx_ok := true, open_tx_ok := true }

/-- A client with session 0 established: both descriptors open, nothing in the pipes. -/
def mountedClient : Client :=
  { session_id := 0, pipename := slotOfString (ascii "/cA"), rx_open := true, tx_open := true,
    to_server := [], from_server := [] }

/-- The client after a `tfs_mount` of `/cA` that the server, its table full, answered
with `-1`: both pipes are open and `session_id` is `-1`. -/
def refusedClient : Client :=
  match tfs_mount opCodes1to7 okEnv { Client.init with from_server := encodeInt (-1) }
      0x7ffd12345678 (ascii "/cA") with
  | some (c, _) => c
  | none => Client.init

/-- The memory holding the bytes `bs`, followed by NULs. -/
def memOf (bs : List Byte) : Nat → Byte := fun k => bs.getD k 0

/-! ## Lemmas on the encoding, the strings, the handlers and the stubs -/

theorem length_leBytes (n u : Nat) : (leBytes n u).length = n := by
  induction n generalizing u with
  | zero => rfl
  | succ n ih => simp [leBytes, ih]

theorem leValue_leBytes (n u : Nat) : leValue (leBytes n u) = u % 256 ^ n := by
  induction n generalizing u with
  | zero => simp [leBytes, leValue, Nat.mod_one]
  | succ n ih =>
    simp only [leBytes, leValue, ih]
    rw [pow_succ, Nat.mul_comm (256 ^ n) 256, Nat.mod_mul]

theorem take_append_length {α : Type} (l rest : List α) (n : Nat) (h : l.length = n) :
    (l ++ rest).take n = l := by
  subst h; simp

theorem drop_append_length {α : Type} (l rest : List α) (n : Nat) (h : l.length = n) :
    (l ++ rest).drop n = rest := by
  subst h; simp

theorem getD_ofFn {n : Nat} (a : Fin n → Byte) (j : Fin n) :
    (List.ofFn a).getD j.val 0 = a j := by
  simp [List.getD_eq_getElem?_getD]

theorem length_encodeInt (v : Int) : (encodeInt v).length = 4 := length_leBytes _ _

theorem length_encodeSize (v : Nat) : (encodeSize v).length = 8 := length_leBytes _ _

theorem decodeInt_encodeInt (v : Int) (h1 : -2 ^ 31 ≤ v) (h2 : v < 2 ^ 31) :
    decodeInt (encodeInt v) = v := by
  unfold decodeInt encodeInt
  rw [leValue_leBytes]
  have hm : (v % 2 ^ 32).toNat % 256 ^ SIZEOF_INT = (v % 2 ^ 32).toNat := by
    apply Nat.mod_eq_of_lt
    have : (256 : Nat) ^ SIZEOF_INT = 4294967296 := by norm_num
    omega
  rw [hm]
  split <;> omega

theorem readInt_encodeInt (v : Int) (rest : List Byte) (h1 : -2 ^ 31 ≤ v) (h2 : v < 2 ^ 31) :
    readInt (encodeInt v ++ rest) = some (v, rest) := by
  have hl := length_encodeInt v
  unfold readInt
  rw [if_pos (by simp [hl])]
  rw [take_append_length _ _ _ hl, drop_append_length _ _ _ hl, decodeInt_encodeInt v h1 h2]

theorem length_slotBytes (a : Slot) : (slotBytes a).length = NAME_SIZE :=
  List.length_ofFn a

theorem readArray_slotBytes (a : Slot) (rest : List Byte) :
    readArray (slotBytes a ++ rest) = (a, rest) := by
  have hl := length_slotBytes a
  unfold readArray
  rw [take_append_length _ _ _ hl, drop_append_length _ _ _ hl]
  congr 1
  funext j
  exact getD_ofFn a j

theorem find_nul_some {n : Nat} (a : Fin n → Byte) (k : Fin n)
    (h : Fin.find (fun j => a j = 0) = some k) :
    a k = 0 ∧ ∀ j : Fin n, j < k → a j ≠ 0 := by
  refine ⟨Fin.find_spec (fun j => a j = 0) (Option.mem_def.mpr h), ?_⟩
  intro j hj hz
  exact Fin.find_min (Option.mem_def.mpr h) hj hz

theorem find_nul_of_zero {n : Nat} (a : Fin n → Byte) (j : Fin n) (h : a j = 0) :
    ∃ k, Fin.find (fun j => a j = 0) = some k := by
  have : (Fin.find (fun j => a j = 0)).isSome := Fin.isSome_find_iff.mpr ⟨j, h⟩
  exact Option.isSome_iff_exists.mp this

theorem nulIndex_some {a : Slot} {n : Fin NAME_SIZE} (h : nulIndex a = some n) :
    a n = 0 ∧ ∀ j : Fin NAME_SIZE, j < n → a j ≠ 0 :=
  find_nul_some a n h

theorem nulIndex_of_zero {a : Slot} {j : Fin NAME_SIZE} (h : a j = 0) :
    ∃ n, nulIndex a = some n :=
  find_nul_of_zero a j h

theorem get_session_id_loop_spec (t : SessionTable) (n i : Nat) (h : S ≤ n + i) :
    (get_session_id_loop t n i = -1 ∧ ∀ j : Fin S, i ≤ j.val → t j 0 ≠ 0) ∨
    (∃ k : Fin S, get_session_id_loop t n i = (k.val : Int) ∧ i ≤ k.val ∧ t k 0 = 0 ∧
      ∀ j : Fin S, i ≤ j.val → j < k → t j 0 ≠ 0) := by
  induction n generalizing i with
  | zero =>
    left
    refine ⟨rfl, ?_⟩
    intro j hj
    have := j.isLt
    omega
  | succ n ih =>
    unfold get_session_id_loop
    by_cases hi : i < S
    · rw [dif_pos hi]
      by_cases hz : t ⟨i, hi⟩ 0 = 0
      · rw [if_pos hz]
        right
        refine ⟨⟨i, hi⟩, rfl, le_refl _, hz, ?_⟩
        intro j hj hlt
        exact absurd hlt (by simp [Fin.lt_def]; omega)
      · rw [if_neg hz]
        have hstep : ∀ j : Fin S, i ≤ j.val → ¬ (i + 1 ≤ j.val) → j = ⟨i, hi⟩ := by
          intro j h1 h2
          apply Fin.ext
          simp only
          omega
        rcases ih (i + 1) (by omega) with ⟨e, hall⟩ | ⟨k, e, hk, hkz, hall⟩
        · left
          refine ⟨e, ?_⟩
          intro j hj
          by_cases hj1 : i + 1 ≤ j.val
          · exact hall j hj1
          · rw [hstep j hj hj1]; exact hz
        · right
          refine ⟨k, e, by omega, hkz, ?_⟩
          intro j hj hlt
          by_cases hj1 : i + 1 ≤ j.val
          · exact hall j hj1 hlt
          · rw [hstep j hj hj1]; exact hz
    · rw [dif_neg hi]
      left
      refine ⟨rfl, ?_⟩
      intro j hj
      have := j.isLt
      omega

theorem get_session_id_spec (t : SessionTable) :
    (get_session_id t = -1 ∧ ∀ j : Fin S, t j 0 ≠ 0) ∨
    (∃ k : Fin S, get_session_id t = (k.val : Int) ∧ t k 0 = 0 ∧
      ∀ j : Fin S, j < k → t j 0 ≠ 0) := by
  rcases get_session_id_loop_spec t S 0 (by omega) with ⟨e, hall⟩ | ⟨k, e, _, hkz, hall⟩
  · exact Or.inl ⟨e, fun j => hall j (Nat.zero_le _)⟩
  · exact Or.inr ⟨k, e, hkz, fun j hj => hall j (Nat.zero_le _) hj⟩

theorem find_nul_eq {n : Nat} (a : Fin n → Byte) (k : Fin n) (hk : a k = 0)
    (hmin : ∀ j : Fin n, j < k → a j ≠ 0) : Fin.find (fun j => a j = 0) = some k := by
  rw [Fin.find_eq_some_iff]
  refine ⟨hk, ?_⟩
  intro j hj
  by_contra hlt
  exact hmin j (Fin.not_le.mp hlt) hj

theorem take_ofFn_congr {m : Nat} (a b : Fin m → Byte) (k : Nat)
    (h : ∀ j : Fin m, j.val < k → a j = b j) :
    (List.ofFn a).take k = (List.ofFn b).take k := by
  apply List.ext_getElem
  · simp
  · intro i h1 h2
    simp only [List.length_take, List.length_ofFn] at h1
    have hi : i < m := by omega
    have hk : i < k := by omega
    simp only [List.getElem_take, List.getElem_ofFn]
    exact h ⟨i, hi⟩ hk

theorem strcpy_spec (dst src : Slot) (h : HasNul src) :
    ∃ p slot, cstr src = some p ∧ strcpy dst src = some slot ∧ cstr slot = some p ∧
      slot 0 = src 0 := by
  obtain ⟨j, hj⟩ := h
  obtain ⟨n, hn⟩ := nulIndex_of_zero hj
  obtain ⟨hz, hmin⟩ := nulIndex_some hn
  have hslot : ∀ i : Fin NAME_SIZE, i ≤ n →
      (fun j => if j ≤ n then src j else dst j) i = src i := by
    intro i hi
    simp only [if_pos hi]
  have hn2 : nulIndex (fun j => if j ≤ n then src j else dst j) = some n := by
    unfold nulIndex
    apply find_nul_eq
    · exact (hslot n (le_refl _)).trans hz
    · intro i hi hzero
      exact hmin i hi ((hslot i (le_of_lt hi)).symm.trans hzero)
  refine ⟨(slotBytes src).take n.val, fun j => if j ≤ n then src j else dst j, ?_, ?_, ?_, ?_⟩
  · simp only [cstr, hn]
  · simp only [strcpy, hn]
  · simp only [cstr, hn2]
    congr 1
    apply take_ofFn_congr
    intro i hi
    exact hslot i (le_of_lt (Fin.lt_def.mpr hi))
  · exact hslot 0 (Fin.zero_le _)

theorem slotIndex_val (k : Fin S) : slotIndex (k.val : Int) = some k := by
  unfold slotIndex
  have hk : k.val < 20 := k.isLt
  rw [dif_pos (by constructor <;> omega)]
  simp

theorem tfs_mount_handler_full {σ : Type} (t : SessionTable) (a : Slot) (rest : List Byte)
    (fs : σ) (hfull : ∀ j : Fin S, t j 0 ≠ 0) (ha : HasNul a) :
    ∃ p, cstr a = some p ∧
      tfs_mount_handler ⟨t, slotBytes a ++ rest, fs⟩ =
        some (⟨t, rest, fs⟩, [⟨p, encodeInt (-1)⟩]) := by
  obtain ⟨p, _, hp, _, _, _⟩ := strcpy_spec zeroSlot a ha
  have hid : get_session_id t = -1 := by
    rcases get_session_id_spec t with ⟨e, _⟩ | ⟨k, _, hk, _⟩
    · exact e
    · exact absurd hk (hfull k)
  refine ⟨p, hp, ?_⟩
  simp only [tfs_mount_handler, readArray_slotBytes, hp, hid, if_true]

theorem tfs_mount_handler_free {σ : Type} (t : SessionTable) (a : Slot) (rest : List Byte)
    (fs : σ) (k : Fin S) (hk : t k 0 = 0) (hmin : ∀ j : Fin S, j < k → t j 0 ≠ 0)
    (ha : HasNul a) :
    ∃ p slot, cstr a = some p ∧ cstr slot = some p ∧ slot 0 = a 0 ∧
      tfs_mount_handler ⟨t, slotBytes a ++ rest, fs⟩ =
        some (⟨Function.update t k slot, rest, fs⟩, [⟨p, encodeInt (k.val : Int)⟩]) := by
  obtain ⟨p, slot, hp, hs, hps, h0⟩ := strcpy_spec (t k) a ha
  have hid : get_session_id t = (k.val : Int) := by
    rcases get_session_id_spec t with ⟨_, hall⟩ | ⟨k2, e, hk2, hmin2⟩
    · exact absurd hk (hall k)
    · have : k2 = k := by
        rcases lt_trichotomy k2 k with h | h | h
        · exact absurd hk2 (hmin k2 h)
        · exact h
        · exact absurd hk (hmin2 k h)
      rw [e, this]
  have hne : ¬ ((k.val : Int) = -1) := by omega
  refine ⟨p, slot, hp, hps, h0, ?_⟩
  simp only [tfs_mount_handler, readArray_slotBytes, hp, hid, if_neg hne, slotIndex_val, hs]

/-- A 40-byte address field with no NUL in it: `open` and `strcpy` run past the end of
`client_pipename`, and the handler's behaviour is undefined. -/
theorem tfs_mount_handler_unterminated :
    (tfs_mount_handler (⟨emptyTable, slotBytes (fun _ => 65), ()⟩ : Server Unit)).isNone =
      true := by
  decide

theorem tfs_unmount_handler_spec {σ : Type} (t : SessionTable) (k : Fin S) (rest : List Byte)
    (fs : σ) :
    tfs_unmount_handler ⟨t, encodeInt (k.val : Int) ++ rest, fs⟩ =
      some (⟨Function.update t k (Function.update (t k) 0 0), rest, fs⟩, []) := by
  have hk : k.val < 20 := k.isLt
  have hr : readInt (encodeInt (k.val : Int) ++ rest) = some ((k.val : Int), rest) :=
    readInt_encodeInt _ _ (by omega) (by omega)
  simp only [tfs_unmount_handler, hr, slotIndex_val]

theorem readInt_append (bs rest : List Byte) (h : bs.length = SIZEOF_INT) :
    readInt (bs ++ rest) = some (decodeInt bs, rest) := by
  unfold readInt
  rw [if_pos (by simp [h]), take_append_length _ _ _ h, drop_append_length _ _ _ h]

theorem readSize_append (bs rest : List Byte) (h : bs.length = SIZEOF_SIZE_T) :
    readSize (bs ++ rest) = some (decodeSize bs, rest) := by
  unfold readSize
  rw [if_pos (by simp [h]), take_append_length _ _ _ h, drop_append_length _ _ _ h]

theorem mountTimes_fill {σ : Type} (fs : σ) (tail : List Byte) (addrs : List Slot) :
    ∀ (k : Nat) (t : SessionTable), FilledTo k t → k + addrs.length = S →
      (∀ x ∈ addrs, IsAddress x) →
      ∃ t1 replies,
        mountTimes addrs.length ⟨t, mountRequests addrs ++ tail, fs⟩ =
          some (⟨t1, tail, fs⟩, replies) ∧
        (∀ j : Fin S, t1 j 0 ≠ 0) ∧
        replies.map Reply.data = idReplies k addrs.length := by
  induction addrs with
  | nil =>
    intro k t hf hk _
    refine ⟨t, [], rfl, ?_, rfl⟩
    intro j
    have hlen : k = S := by simpa using hk
    exact (hf j).1 (by rw [hlen]; exact j.isLt)
  | cons x xs ih =>
    intro k t hf hk hx
    have hkS : k < S := by simp only [List.length_cons] at hk; omega
    have hfree : t ⟨k, hkS⟩ 0 = 0 := (hf ⟨k, hkS⟩).2 (le_refl _)
    have hmin : ∀ j : Fin S, j < ⟨k, hkS⟩ → t j 0 ≠ 0 := fun j hj => (hf j).1 hj
    have hxa : IsAddress x := hx x (List.mem_cons_self _ _)
    obtain ⟨p, slot, _, _, h0, hm⟩ :=
      tfs_mount_handler_free t x (mountRequests xs ++ tail) fs ⟨k, hkS⟩ hfree hmin hxa.2
    have hf1 : FilledTo (k + 1) (Function.update t ⟨k, hkS⟩ slot) := by
      intro j
      by_cases hj : j = ⟨k, hkS⟩
      · subst hj
        simp only [Function.update_same]
        refine ⟨fun _ => by rw [h0]; exact hxa.1, fun h => absurd h (by simp)⟩
      · have hjk : j.val ≠ k := fun h => hj (Fin.ext h)
        simp only [Function.update_noteq hj]
        exact ⟨fun h => (hf j).1 (by omega), fun h => (hf j).2 (by omega)⟩
    obtain ⟨t1, replies, hrun, hfull, hrep⟩ :=
      ih (k + 1) _ hf1 (by simp only [List.length_cons] at hk; omega)
        (fun y hy => hx y (List.mem_cons_of_mem _ hy))
    refine ⟨t1, ⟨p, encodeInt (Int.ofNat k)⟩ :: replies, ?_, hfull, ?_⟩
    · simp only [List.length_cons, mountTimes, mountRequests, List.append_assoc, hm, hrun,
        List.singleton_append]
      rfl
    · simp only [List.map_cons, List.length_cons, idReplies, hrep]

theorem isAddress_demoAddress (i : Nat) : IsAddress (demoAddress i) := by
  refine ⟨?_, ⟨3, rfl⟩⟩
  show (47 : Byte) ≠ 0
  decide

theorem isAddress_demoAddresses : ∀ x ∈ demoAddresses, IsAddress x := by
  intro x hx
  obtain ⟨i, _, rfl⟩ := List.mem_map.mp hx
  exact isAddress_demoAddress i

theorem demoFullTable_full : ∀ j : Fin S, demoFullTable j 0 ≠ 0 := fun _ => by
  show (47 : Byte) ≠ 0
  decide

theorem idReplies_range :
    idReplies 0 S = (List.range S).map (fun (i : Nat) => encodeInt (Int.ofNat i)) := by
  decide

theorem OpCodes.pairwise_ne (oc : OpCodes) :
    (oc.TFS_OP_CODE_MOUNT ≠ oc.TFS_OP_CODE_UNMOUNT ∧ oc.TFS_OP_CODE_MOUNT ≠ oc.TFS_OP_CODE_OPEN ∧
      oc.TFS_OP_CODE_MOUNT ≠ oc.TFS_OP_CODE_CLOSE ∧ oc.TFS_OP_CODE_MOUNT ≠ oc.TFS_OP_CODE_WRITE ∧
      oc.TFS_OP_CODE_MOUNT ≠ oc.TFS_OP_CODE_READ ∧
      oc.TFS_OP_CODE_MOUNT ≠ oc.TFS_OP_CODE_SHUTDOWN_AFTER_ALL_CLOSED) ∧
    (oc.TFS_OP_CODE_UNMOUNT ≠ oc.TFS_OP_CODE_OPEN ∧ oc.TFS_OP_CODE_UNMOUNT ≠ oc.TFS_OP_CODE_CLOSE ∧
      oc.TFS_OP_CODE_UNMOUNT ≠ oc.TFS_OP_CODE_WRITE ∧ oc.TFS_OP_CODE_UNMOUNT ≠ oc.TFS_OP_CODE_READ ∧
      oc.TFS_OP_CODE_UNMOUNT ≠ oc.TFS_OP_CODE_SHUTDOWN_AFTER_ALL_CLOSED) ∧
    (oc.TFS_OP_CODE_OPEN ≠ oc.TFS_OP_CODE_CLOSE ∧ oc.TFS_OP_CODE_OPEN ≠ oc.TFS_OP_CODE_WRITE ∧
      oc.TFS_OP_CODE_OPEN ≠ oc.TFS_OP_CODE_READ ∧
      oc.TFS_OP_CODE_OPEN ≠ oc.TFS_OP_CODE_SHUTDOWN_AFTER_ALL_CLOSED) ∧
    (oc.TFS_OP_CODE_CLOSE ≠ oc.TFS_OP_CODE_WRITE ∧ oc.TFS_OP_CODE_CLOSE ≠ oc.TFS_OP_CODE_READ ∧
      oc.TFS_OP_CODE_CLOSE ≠ oc.TFS_OP_CODE_SHUTDOWN_AFTER_ALL_CLOSED) ∧
    (oc.TFS_OP_CODE_WRITE ≠ oc.TFS_OP_CODE_READ ∧
      oc.TFS_OP_CODE_WRITE ≠ oc.TFS_OP_CODE_SHUTDOWN_AFTER_ALL_CLOSED) ∧
    oc.TFS_OP_CODE_READ ≠ oc.TFS_OP_CODE_SHUTDOWN_AFTER_ALL_CLOSED := by
  have h := oc.distinct
  simp only [List.nodup_cons, List.mem_cons, List.mem_singleton, not_or, List.not_mem_nil,
    not_false_eq_true, List.nodup_nil, and_true] at h
  exact h

theorem OpCodes.range_of_mem (oc : OpCodes) (c : Int)
    (h : c ∈ [oc.TFS_OP_CODE_MOUNT, oc.TFS_OP_CODE_UNMOUNT, oc.TFS_OP_CODE_OPEN,
      oc.TFS_OP_CODE_CLOSE, oc.TFS_OP_CODE_WRITE, oc.TFS_OP_CODE_READ,
      oc.TFS_OP_CODE_SHUTDOWN_AFTER_ALL_CLOSED]) (rest : List Byte) :
    readInt (encodeInt c ++ rest) = some (c, rest) :=
  readInt_encodeInt c rest (oc.in_range c h).1 (oc.in_range c h).2

theorem main_loop_MOUNT {σ : Type} (oc : OpCodes) (E : Engine σ) (t : SessionTable)
    (rest : List Byte) (fs : σ) :
    main_loop_iteration oc E ⟨t, encodeInt oc.TFS_OP_CODE_MOUNT ++ rest, fs⟩ =
      tfs_mount_handler ⟨t, rest, fs⟩ := by
  have hr := oc.range_of_mem oc.TFS_OP_CODE_MOUNT (by simp) rest
  simp only [main_loop_iteration, hr, if_true]

theorem main_loop_UNMOUNT {σ : Type} (oc : OpCodes) (E : Engine σ) (t : SessionTable)
    (rest : List Byte) (fs : σ) :
    main_loop_iteration oc E ⟨t, encodeInt oc.TFS_OP_CODE_UNMOUNT ++ rest, fs⟩ =
      tfs_unmount_handler ⟨t, rest, fs⟩ := by
  have hr := oc.range_of_mem oc.TFS_OP_CODE_UNMOUNT (by simp) rest
  obtain ⟨⟨h1, _⟩, _⟩ := oc.pairwise_ne
  simp only [main_loop_iteration, hr, if_true, if_neg h1.symm]

theorem main_loop_OPEN {σ : Type} (oc : OpCodes) (E : Engine σ) (t : SessionTable)
    (rest : List Byte) (fs : σ) :
    main_loop_iteration oc E ⟨t, encodeInt oc.TFS_OP_CODE_OPEN ++ rest, fs⟩ =
      tfs_open_handler E ⟨t, rest, fs⟩ := by
  have hr := oc.range_of_mem oc.TFS_OP_CODE_OPEN (by simp) rest
  obtain ⟨⟨_, h1, _⟩, ⟨h2, _⟩, _⟩ := oc.pairwise_ne
  simp only [main_loop_iteration, hr, if_true, if_neg h1.symm,
    if_neg h2.symm]

theorem main_loop_CLOSE {σ : Type} (oc : OpCodes) (E : Engine σ) (t : SessionTable)
    (rest : List Byte) (fs : σ) :
    main_loop_iteration oc E ⟨t, encodeInt oc.TFS_OP_CODE_CLOSE ++ rest, fs⟩ =
      tfs_close_handler E ⟨t, rest, fs⟩ := by
  have hr := oc.range_of_mem oc.TFS_OP_CODE_CLOSE (by simp) rest
  obtain ⟨⟨_, _, h1, _⟩, ⟨_, h2, _⟩, ⟨h3, _⟩, _⟩ := oc.pairwise_ne
  simp only [main_loop_iteration, hr, if_true, if_neg h1.symm,
    if_neg h2.symm, if_neg h3.symm]

theorem main_loop_WRITE {σ : Type} (oc : OpCodes) (E : Engine σ) (t : SessionTable)
    (rest : List Byte) (fs : σ) :
    main_loop_iteration oc E ⟨t, encodeInt oc.TFS_OP_CODE_WRITE ++ rest, fs⟩ =
      tfs_write_handler E ⟨t, rest, fs⟩ := by
  have hr := oc.range_of_mem oc.TFS_OP_CODE_WRITE (by simp) rest
  obtain ⟨⟨_, _, _, h1, _⟩, ⟨_, _, h2, _⟩, ⟨_, h3, _⟩, ⟨h4, _⟩, _⟩ := oc.pairwise_ne
  simp only [main_loop_iteration, hr, if_true, if_neg h1.symm,
    if_neg h2.symm, if_neg h3.symm, if_neg h4.symm]

theorem main_loop_READ {σ : Type} (oc : OpCodes) (E : Engine σ) (t : SessionTable)
    (rest : List Byte) (fs : σ) :
    main_loop_iteration oc E ⟨t, encodeInt oc.TFS_OP_CODE_READ ++ rest, fs⟩ =
      tfs_read_handler E ⟨t, rest, fs⟩ := by
  have hr := oc.range_of_mem oc.TFS_OP_CODE_READ (by simp) rest
  obtain ⟨⟨_, _, _, _, h1, _⟩, ⟨_, _, _, h2, _⟩, ⟨_, _, h3, _⟩, ⟨_, h4, _⟩, ⟨h5, _⟩, _⟩ :=
    oc.pairwise_ne
  simp only [main_loop_iteration, hr, if_true, if_neg h1.symm,
    if_neg h2.symm, if_neg h3.symm, if_neg h4.symm, if_neg h5.symm]

theorem main_loop_SHUTDOWN {σ : Type} (oc : OpCodes) (E : Engine σ) (t : SessionTable)
    (rest : List Byte) (fs : σ) :
    main_loop_iteration oc E ⟨t, encodeInt oc.TFS_OP_CODE_SHUTDOWN_AFTER_ALL_CLOSED ++ rest, fs⟩ =
      tfs_shutdown_after_all_closed_handler E ⟨t, rest, fs⟩ := by
  have hr := oc.range_of_mem oc.TFS_OP_CODE_SHUTDOWN_AFTER_ALL_CLOSED (by simp) rest
  obtain ⟨⟨_, _, _, _, _, h1⟩, ⟨_, _, _, _, h2⟩, ⟨_, _, _, h3⟩, ⟨_, _, h4⟩, ⟨_, h5⟩, h6⟩ :=
    oc.pairwise_ne
  simp only [main_loop_iteration, hr, if_true, if_neg h1.symm,
    if_neg h2.symm, if_neg h3.symm, if_neg h4.symm, if_neg h5.symm, if_neg h6.symm]

theorem openClientPipe_spec {σ : Type} (t : SessionTable) (k : Fin S) (rest : List Byte)
    (fs : σ) (hk : HasNul (t k)) :
    ∃ p, cstr (t k) = some p ∧
      openClientPipe (⟨t, encodeInt (k.val : Int) ++ rest, fs⟩ : Server σ) = some (p, rest) := by
  have hlt : k.val < 20 := k.isLt
  have hr : readInt (encodeInt (k.val : Int) ++ rest) = some ((k.val : Int), rest) :=
    readInt_encodeInt _ _ (by omega) (by omega)
  obtain ⟨p, slot, hp, hs, hps, _⟩ := strcpy_spec zeroSlot (t k) hk
  refine ⟨p, hp, ?_⟩
  simp only [openClientPipe, hr, slotIndex_val, hs, hps]

theorem main_loop_UNMOUNT_no_reply {σ : Type} (oc : OpCodes) (E : Engine σ)
    (t : SessionTable) (fs : σ) (k : Fin S) (rest : List Byte) :
    main_loop_iteration oc E ⟨t, (Request.UNMOUNT (k.val : Int)).bytes oc ++ rest, fs⟩ =
      some (⟨Function.update t k (Function.update (t k) 0 0), rest, fs⟩, []) := by
  simp only [Request.bytes, List.append_assoc, main_loop_UNMOUNT]
  exact tfs_unmount_handler_spec t k rest fs

theorem decodeInt_encodeInt_index (k : Fin S) : decodeInt (encodeInt (k.val : Int)) = k.val := by
  have hk : k.val < 20 := k.isLt
  exact decodeInt_encodeInt _ (by omega) (by omega)

theorem cstr_eq_nil_iff {a : Slot} {p : List Byte} (h : cstr a = some p) :
    p = [] ↔ a 0 = 0 := by
  unfold cstr at h
  split at h
  · exact absurd h (by simp)
  · rename_i n hn
    obtain ⟨hz, hmin⟩ := nulIndex_some hn
    simp only [Option.some.injEq] at h
    subst h
    have hlen : ((slotBytes a).take n.val).length = n.val := by
      have hn40 : n.val < NAME_SIZE := n.isLt
      rw [List.length_take, length_slotBytes]
      omega
    constructor
    · intro hnil
      rw [hnil] at hlen
      have h0 : n = 0 := Fin.ext hlen.symm
      rw [← h0]; exact hz
    · intro h0
      have hn0 : n.val = 0 := by
        by_contra hne
        exact hmin 0 (Fin.lt_def.mpr (Nat.pos_of_ne_zero hne)) h0
      exact List.eq_nil_of_length_eq_zero (hlen.trans hn0)

theorem serve_MOUNT_step {σ : Type} (oc : OpCodes) (E : Engine σ) (t : SessionTable) (fs : σ)
    (act : List Int) (a : Slot) (ha : HasNul a) (hinv : SessionsInv t act) :
    ∃ t1 replies, serve oc E ⟨t, [], fs⟩ (Request.MOUNT a) = some (⟨t1, [], fs⟩, replies) ∧
      SessionsInv t1 (sessionsStep act (Request.MOUNT a) replies) := by
  have hserve : serve oc E ⟨t, [], fs⟩ (Request.MOUNT a) =
      tfs_mount_handler ⟨t, slotBytes a ++ [], fs⟩ := by
    simp only [serve, Request.bytes, List.nil_append, main_loop_MOUNT, List.append_nil]
  rcases get_session_id_spec t with ⟨_, hall⟩ | ⟨k, _, hk, hmin⟩
  · obtain ⟨p, _, hm⟩ := tfs_mount_handler_full t a [] fs hall ha
    refine ⟨t, _, hserve.trans hm, ?_⟩
    have hd : decodeInt (encodeInt (-1)) = -1 := by decide
    simp only [sessionsStep, hd, if_true, ite_self]
    exact hinv
  · obtain ⟨p, slot, hp, _, h0, hm⟩ := tfs_mount_handler_free t a [] fs k hk hmin ha
    refine ⟨_, _, hserve.trans hm, ?_⟩
    obtain ⟨hnd, hocc, hact⟩ := hinv
    by_cases ha0 : a 0 = 0
    · have hp0 : p = [] := (cstr_eq_nil_iff hp).mpr ha0
      simp only [sessionsStep, hp0, if_true]
      refine ⟨hnd, ?_, ?_⟩
      · intro id hmem
        obtain ⟨k2, e, h2⟩ := hocc id hmem
        refine ⟨k2, e, ?_⟩
        have hk2 : k2 ≠ k := fun h => h2 (h ▸ hk)
        simp only [Function.update_noteq hk2]
        exact h2
      · intro k2 h2
        have hk2 : k2 ≠ k := by
          intro h
          subst h
          simp only [Function.update_same] at h2
          exact h2 (h0.trans ha0)
        simp only [Function.update_noteq hk2] at h2
        exact hact k2 h2
    · have hp0 : ¬ (p = []) := fun h => ha0 ((cstr_eq_nil_iff hp).mp h)
      have hne : ¬ ((k.val : Int) = -1) := by omega
      simp only [sessionsStep, decodeInt_encodeInt_index, if_neg hne, if_neg hp0]
      refine ⟨List.nodup_cons.mpr ⟨?_, hnd⟩, ?_, ?_⟩
      · intro hmem
        obtain ⟨k2, e, h2⟩ := hocc _ hmem
        have : k = k2 := Fin.ext (by exact_mod_cast e)
        subst this
        exact h2 hk
      · intro id hmem
        rcases List.mem_cons.mp hmem with e | hmem
        · refine ⟨k, e, ?_⟩
          simp only [Function.update_same]
          rw [h0]; exact ha0
        · obtain ⟨k2, e, h2⟩ := hocc id hmem
          refine ⟨k2, e, ?_⟩
          have hk2 : k2 ≠ k := fun h => h2 (h ▸ hk)
          simp only [Function.update_noteq hk2]
          exact h2
      · intro k2 h2
        by_cases hk2 : k2 = k
        · subst hk2; exact List.mem_cons_self _ _
        · simp only [Function.update_noteq hk2] at h2
          exact List.mem_cons_of_mem _ (hact k2 h2)

theorem serve_UNMOUNT_step {σ : Type} (oc : OpCodes) (E : Engine σ) (t : SessionTable) (fs : σ)
    (act : List Int) (id : Int) (hid : id ∈ act) (hinv : SessionsInv t act) :
    ∃ t1 replies, serve oc E ⟨t, [], fs⟩ (Request.UNMOUNT id) = some (⟨t1, [], fs⟩, replies) ∧
      SessionsInv t1 (sessionsStep act (Request.UNMOUNT id) replies) := by
  obtain ⟨hnd, hocc, hact⟩ := hinv
  obtain ⟨k, e, _⟩ := hocc id hid
  subst e
  have hserve : serve oc E ⟨t, [], fs⟩ (Request.UNMOUNT (k.val : Int)) =
      some (⟨Function.update t k (Function.update (t k) 0 0), [], fs⟩, []) := by
    have h := main_loop_UNMOUNT_no_reply oc E t fs k []
    simp only [List.append_nil] at h
    simp only [serve, List.nil_append, h]
  refine ⟨_, _, hserve, ?_⟩
  simp only [sessionsStep]
  refine ⟨hnd.erase _, ?_, ?_⟩
  · intro id hmem
    obtain ⟨hne, hmem2⟩ := (hnd.mem_erase_iff).mp hmem
    obtain ⟨k2, e, h2⟩ := hocc id hmem2
    refine ⟨k2, e, ?_⟩
    have hk2 : k2 ≠ k := fun h => hne (by rw [e, h])
    simp only [Function.update_noteq hk2]
    exact h2
  · intro k2 h2
    have hk2 : k2 ≠ k := by
      intro h
      subst h
      simp only [Function.update_same] at h2
      exact h2 rfl
    simp only [Function.update_noteq hk2] at h2
    refine (hnd.mem_erase_iff).mpr ⟨?_, hact k2 h2⟩
    intro h
    exact hk2 (Fin.ext (by exact_mod_cast h))

theorem sessionsAfter_inv {σ : Type} (oc : OpCodes) (E : Engine σ) (fs : σ)
    (reqs : List Request) :
    ∀ (t : SessionTable) (act : List Int), SessionsInv t act →
      admissible oc E reqs ⟨t, [], fs⟩ act = true → (∀ r ∈ reqs, r.mountsString) →
      ∃ t1 act1, sessionsAfter oc E reqs ⟨t, [], fs⟩ act = some (⟨t1, [], fs⟩, act1) ∧
        SessionsInv t1 act1 := by
  induction reqs with
  | nil =>
    intro t act hinv _ _
    exact ⟨t, act, rfl, hinv⟩
  | cons r rs ih =>
    intro t act hinv hadm hwf
    have hr := hwf r (List.mem_cons_self _ _)
    have hrs : ∀ x ∈ rs, x.mountsString := fun x hx => hwf x (List.mem_cons_of_mem _ hx)
    have hstep : ∃ t1 replies, serve oc E ⟨t, [], fs⟩ r = some (⟨t1, [], fs⟩, replies) ∧
        SessionsInv t1 (sessionsStep act r replies) := by
      cases r with
      | MOUNT a => exact serve_MOUNT_step oc E t fs act a hr hinv
      | UNMOUNT id =>
        have hmem : id ∈ act := by
          simp only [admissible, Bool.and_eq_true, decide_eq_true_eq] at hadm
          exact hadm.1
        exact serve_UNMOUNT_step oc E t fs act id hmem hinv
      | OPEN _ _ _ => simp [admissible] at hadm
      | CLOSE _ _ => simp [admissible] at hadm
      | WRITE _ _ _ _ => simp [admissible] at hadm
      | READ _ _ _ _ => simp [admissible] at hadm
      | SHUTDOWN_AFTER_ALL_CLOSED _ => simp [admissible] at hadm
    obtain ⟨t1, replies, hs, hinv1⟩ := hstep
    have hadm1 : admissible oc E rs ⟨t1, [], fs⟩ (sessionsStep act r replies) = true := by
      simp only [admissible, hs, Bool.and_eq_true] at hadm
      exact hadm.2
    obtain ⟨t2, act2, hrun, hinv2⟩ := ih t1 _ hinv1 hadm1 hrs
    refine ⟨t2, act2, ?_, hinv2⟩
    simp only [sessionsAfter, hs, hrun]

theorem demoRequests_mountsString : ∀ r ∈ demoRequests, r.mountsString := by
  intro r hr
  simp only [demoRequests, List.mem_cons, List.mem_singleton, List.not_mem_nil, or_false] at hr
  rcases hr with h | h | h | h | h | h | h <;> subst h
  · exact (isAddress_demoAddress 0).2
  · exact ⟨0, rfl⟩
  · exact ⟨0, rfl⟩
  · exact (isAddress_demoAddress 1).2
  · exact (isAddress_demoAddress 2).2
  · trivial
  · exact (isAddress_demoAddress 3).2

/-- Two MOUNT requests whose address field is all NUL start no session: the handler
computes id `0` both times, hands it to the descriptor of the empty path, and leaves
slot 0 free. -/
theorem empty_address_mounts_start_no_session :
    (sessionsAfter opCodes1to7 nullEngine [Request.MOUNT zeroSlot, Request.MOUNT zeroSlot]
      ⟨emptyTable, [], ()⟩ []).map (fun out => (out.2, get_session_id out.1.session_ids)) =
      some ([], 0) := by
  decide

theorem write_tx_tx_open (c : Client) (data : List Byte) :
    (c.write_tx data).tx_open = c.tx_open := by
  unfold Client.write_tx; split <;> rfl

theorem write_tx_session_id (c : Client) (data : List Byte) :
    (c.write_tx data).session_id = c.session_id := by
  unfold Client.write_tx; split <;> rfl

theorem write_tx_to_server (c : Client) (data : List Byte) (h : c.tx_open = true) :
    (c.write_tx data).to_server = c.to_server ++ data := by
  simp only [Client.write_tx, h, if_true]

theorem read_rx_int_to_server (c : Client) (v : Int) (c1 : Client)
    (h : c.read_rx_int = some (v, c1)) : c1.to_server = c.to_server := by
  unfold Client.read_rx_int at h
  split at h
  · split at h
    · exact absurd h (by simp)
    · simp only [Option.some.injEq, Prod.mk.injEq] at h
      rw [← h.2]
  · exact absurd h (by simp)

theorem read_rx_ssize_to_server (c : Client) (v : Int) (c1 : Client)
    (h : c.read_rx_ssize = some (v, c1)) : c1.to_server = c.to_server := by
  unfold Client.read_rx_ssize at h
  split at h
  · split at h
    · exact absurd h (by simp)
    · simp only [Option.some.injEq, Prod.mk.injEq] at h
      rw [← h.2]
  · exact absurd h (by simp)

/-- The stubs `tfs_open`, `tfs_close`, `tfs_write`, `tfs_read` and
`tfs_shutdown_after_all_closed` test nothing before they write: with `tx` open, each
writes its whole request, session id included, whatever `session_id` holds. -/
theorem stubs_write_unconditionally (oc : OpCodes) (c : Client) (h : c.tx_open = true)
    (name buffer : Nat → Byte) (flags fhandle : Int) (len : Nat) :
    (tfs_open oc c name flags).1.to_server =
      c.to_server ++ encodeInt oc.TFS_OP_CODE_OPEN ++ encodeInt c.session_id ++
        memBytes name SIZEOF_SIZE_T ++ encodeInt flags ∧
    (tfs_close oc c fhandle).1.to_server =
      c.to_server ++ encodeInt oc.TFS_OP_CODE_CLOSE ++ encodeInt c.session_id ++
        encodeInt fhandle ∧
    (tfs_write oc c fhandle buffer len).1.to_server =
      c.to_server ++ encodeInt oc.TFS_OP_CODE_WRITE ++ encodeInt c.session_id ++
        encodeInt fhandle ++ encodeSize len ++ memBytes buffer SIZEOF_SIZE_T ∧
    (tfs_read oc c fhandle buffer len).1.to_server =
      c.to_server ++ encodeInt oc.TFS_OP_CODE_READ ++ encodeInt c.session_id ++
        encodeInt fhandle ++ encodeSize len ++ memBytes buffer SIZEOF_SIZE_T ∧
    (tfs_shutdown_after_all_closed oc c).1.to_server =
      c.to_server ++ encodeInt oc.TFS_OP_CODE_SHUTDOWN_AFTER_ALL_CLOSED ++
        encodeInt c.session_id := by
  refine ⟨?_, ?_, ?_, ?_, ?_⟩
  · unfold tfs_open
    simp only []
    split
    · simp only [write_tx_to_server, write_tx_tx_open, write_tx_session_id, h]
    · rename_i res c5 hread
      have hs := read_rx_int_to_server _ _ _ hread
      simp only [write_tx_to_server, write_tx_tx_open, write_tx_session_id, h] at hs
      split <;> exact hs
  · unfold tfs_close
    simp only []
    split
    · simp only [write_tx_to_server, write_tx_tx_open, write_tx_session_id, h]
    · rename_i res c5 hread
      have hs := read_rx_int_to_server _ _ _ hread
      simp only [write_tx_to_server, write_tx_tx_open, write_tx_session_id, h] at hs
      split <;> exact hs
  · unfold tfs_write
    simp only []
    split
    · simp only [write_tx_to_server, write_tx_tx_open, write_tx_session_id, h]
    · rename_i res c5 hread
      have hs := read_rx_ssize_to_server _ _ _ hread
      simp only [write_tx_to_server, write_tx_tx_open, write_tx_session_id, h] at hs
      split <;> exact hs
  · unfold tfs_read
    simp only []
    split
    · simp only [write_tx_to_server, write_tx_tx_open, write_tx_session_id, h]
    · rename_i res c5 hread
      have hs := read_rx_ssize_to_server _ _ _ hread
      simp only [write_tx_to_server, write_tx_tx_open, write_tx_session_id, h] at hs
      split <;> exact hs
  · unfold tfs_shutdown_after_all_closed
    simp only []
    split
    · simp only [write_tx_to_server, write_tx_tx_open, write_tx_session_id, h]
    · rename_i res c5 hread
      have hs := read_rx_int_to_server _ _ _ hread
      simp only [write_tx_to_server, write_tx_tx_open, write_tx_session_id, h] at hs
      split <;> exact hs

theorem write_tx_rx (c : Client) (data : List Byte) :
    (c.write_tx data).rx_open = c.rx_open ∧ (c.write_tx data).from_server = c.from_server := by
  unfold Client.write_tx; split <;> exact ⟨rfl, rfl⟩

/-- Whatever handle the server answers, `tfs_open` returns `0`, and `-1` for `-1`. -/
theorem tfs_open_result (oc : OpCodes) (c : Client) (name : Nat → Byte) (flags h : Int)
    (rest : List Byte) (hrx : c.rx_open = true) (hin : c.from_server = encodeInt h ++ rest)
    (h1 : -2 ^ 31 ≤ h) (h2 : h < 2 ^ 31) :
    (tfs_open oc c name flags).2 = some (if h = -1 then -1 else 0) := by
  have hread : ∀ c4 : Client, c4.rx_open = true → c4.from_server = encodeInt h ++ rest →
      c4.read_rx_int = some (h, { c4 with from_server := rest }) := by
    intro c4 e1 e2
    simp only [Client.read_rx_int, e1, e2, if_true, readInt_encodeInt h rest h1 h2]
  unfold tfs_open
  simp only []
  rw [hread _ (by simp only [write_tx_rx, hrx]) (by simp only [write_tx_rx, hin])]
  simp only []
  split <;> rfl

theorem admissible_take {σ : Type} (oc : OpCodes) (E : Engine σ) (reqs : List Request) :
    ∀ (n : Nat) (s : Server σ) (act : List Int), admissible oc E reqs s act = true →
      admissible oc E (reqs.take n) s act = true := by
  induction reqs with
  | nil => intro n s act h; simpa using h
  | cons r rs ih =>
    intro n s act h
    cases n with
    | zero => rfl
    | succ n =>
      simp only [List.take_succ_cons, admissible, Bool.and_eq_true] at h ⊢
      refine ⟨h.1, ?_⟩
      have h2 := h.2
      split
      · rfl
      · rename_i s1 replies hs
        simp only [hs] at h2
        exact ih n s1 _ h2

/-! ## The properties of the specification -/

/-- C1: for every state of the session table, `get_session_id` returns `-1` exactly when
all `S` slots are occupied (first byte other than NUL), and otherwise returns the
smallest index of a free slot.  The function only reads the table: it is a function
from the table to the result. -/
theorem get_session_id_first_free (session_ids : SessionTable) :
    (get_session_id session_ids = -1 ↔ ∀ j : Fin S, session_ids j 0 ≠ 0) ∧
    (∀ i : Fin S, session_ids i 0 = 0 →
      ∃ k : Fin S, get_session_id session_ids = (k.val : Int) ∧ session_ids k 0 = 0 ∧
        ∀ j : Fin S, session_ids j 0 = 0 → k ≤ j) := by
  rcases get_session_id_spec session_ids with ⟨e, hall⟩ | ⟨k, e, hk, hmin⟩
  · refine ⟨⟨fun _ => hall, fun _ => e⟩, ?_⟩
    intro i hi
    exact absurd hi (hall i)
  · refine ⟨⟨?_, ?_⟩, ?_⟩
    · intro h
      rw [e] at h
      omega
    · intro h
      exact absurd hk (h k)
    · intro _ _
      refine ⟨k, e, hk, ?_⟩
      intro j hj
      by_contra hlt
      exact hmin j (Fin.not_le.mp hlt) hj

/-- C2: from the empty session table, once `S = 20` MOUNT requests carrying non-empty
addresses were handled by `tfs_mount_handler` (they are answered `0, ..., 19`), the next
MOUNT request is answered with `-1` on the channel of its address and leaves the session
table as it was. -/
theorem mount_beyond_capacity_fails {σ : Type} (fs : σ) (addrs : List Slot) (a : Slot)
    (rest : List Byte) (hlen : addrs.length = S) (haddrs : ∀ x ∈ addrs, IsAddress x)
    (ha : HasNul a) :
    ∃ (t : SessionTable) (replies : List Reply) (p : List Byte),
      mountTimes S ⟨emptyTable, mountRequests addrs ++ (slotBytes a ++ rest), fs⟩ =
        some (⟨t, slotBytes a ++ rest, fs⟩, replies) ∧
      replies.map Reply.data =
        (List.range S).map (fun (i : Nat) => encodeInt (Int.ofNat i)) ∧
      cstr a = some p ∧
      tfs_mount_handler ⟨t, slotBytes a ++ rest, fs⟩ =
        some (⟨t, rest, fs⟩, [⟨p, encodeInt (-1)⟩]) := by
  have h0 : FilledTo 0 emptyTable :=
    fun j => ⟨fun h => absurd h (Nat.not_lt_zero _), fun _ => rfl⟩
  obtain ⟨t, replies, hrun, hfull, hrep⟩ :=
    mountTimes_fill fs (slotBytes a ++ rest) addrs 0 emptyTable h0 (by omega) haddrs
  obtain ⟨p, hp, hm⟩ := tfs_mount_handler_full t a rest fs hfull ha
  rw [hlen] at hrun hrep
  exact ⟨t, replies, p, hrun, hrep.trans idReplies_range, hp, hm⟩

/-- Twenty clients `/cA`, ..., `/cT` mount, then `/cU` asks. -/
theorem mount_beyond_capacity_fails_witness :
    (demoAddresses.length = S ∧ (∀ x ∈ demoAddresses, IsAddress x) ∧
        HasNul (demoAddress 20)) ∧
      ∃ (t : SessionTable) (replies : List Reply) (p : List Byte),
        mountTimes S ⟨emptyTable, mountRequests demoAddresses ++
            (slotBytes (demoAddress 20) ++ []), ()⟩ =
          some (⟨t, slotBytes (demoAddress 20) ++ [], ()⟩, replies) ∧
        replies.map Reply.data =
          (List.range S).map (fun (i : Nat) => encodeInt (Int.ofNat i)) ∧
        cstr (demoAddress 20) = some p ∧
        tfs_mount_handler ⟨t, slotBytes (demoAddress 20) ++ [], ()⟩ =
          some (⟨t, [], ()⟩, [⟨p, encodeInt (-1)⟩]) :=
  ⟨⟨rfl, isAddress_demoAddresses, ⟨3, rfl⟩⟩,
    mount_beyond_capacity_fails () demoAddresses (demoAddress 20) [] rfl
      isAddress_demoAddresses ⟨3, rfl⟩⟩

/-- C3: on a full session table, `tfs_unmount_handler` for an id in `[0, S)` frees slot
`id` and leaves the other slots as they were; the next MOUNT request with a non-empty
address is answered with that same id, and slot `id` then holds the new address. -/
theorem unmount_then_mount_reuses_slot {σ : Type} (fs : σ) (t : SessionTable) (k : Fin S)
    (a : Slot) (rest : List Byte) (hfull : ∀ j : Fin S, t j 0 ≠ 0) (ha : IsAddress a) :
    ∃ (t1 t2 : SessionTable) (p : List Byte),
      tfs_unmount_handler ⟨t, encodeInt (k.val : Int) ++ (slotBytes a ++ rest), fs⟩ =
        some (⟨t1, slotBytes a ++ rest, fs⟩, []) ∧
      t1 k 0 = 0 ∧ (∀ j : Fin S, j ≠ k → t1 j = t j) ∧
      tfs_mount_handler ⟨t1, slotBytes a ++ rest, fs⟩ =
        some (⟨t2, rest, fs⟩, [⟨p, encodeInt (k.val : Int)⟩]) ∧
      cstr a = some p ∧ cstr (t2 k) = some p ∧ t2 k 0 ≠ 0 ∧
      (∀ j : Fin S, j ≠ k → t2 j = t j) := by
  have hfree : Function.update t k (Function.update (t k) 0 0) k 0 = 0 := by
    simp only [Function.update_same]
  have hother : ∀ j : Fin S, j ≠ k →
      Function.update t k (Function.update (t k) 0 0) j = t j :=
    fun j hj => Function.update_noteq hj _ _
  have hmin : ∀ j : Fin S, j < k →
      Function.update t k (Function.update (t k) 0 0) j 0 ≠ 0 := by
    intro j hj
    rw [hother j (ne_of_lt hj)]
    exact hfull j
  obtain ⟨p, slot, hp, hps, h0, hm⟩ :=
    tfs_mount_handler_free _ a rest fs k hfree hmin ha.2
  refine ⟨_, _, p, tfs_unmount_handler_spec t k _ fs, hfree, hother, hm, hp, ?_, ?_, ?_⟩
  · simp only [Function.update_same]; exact hps
  · simp only [Function.update_same]; rw [h0]; exact ha.1
  · intro j hj
    simp only [Function.update_noteq hj]

/-- Session 7 of a full table unmounts, then `/cU` mounts. -/
theorem unmount_then_mount_reuses_slot_witness :
    ((∀ j : Fin S, demoFullTable j 0 ≠ 0) ∧ IsAddress (demoAddress 20)) ∧
      ∃ (t1 t2 : SessionTable) (p : List Byte),
        tfs_unmount_handler ⟨demoFullTable, encodeInt (((7 : Fin S).val : Nat) : Int) ++
            (slotBytes (demoAddress 20) ++ []), ()⟩ =
          some (⟨t1, slotBytes (demoAddress 20) ++ [], ()⟩, []) ∧
        t1 7 0 = 0 ∧ (∀ j : Fin S, j ≠ 7 → t1 j = demoFullTable j) ∧
        tfs_mount_handler ⟨t1, slotBytes (demoAddress 20) ++ [], ()⟩ =
          some (⟨t2, [], ()⟩, [⟨p, encodeInt (((7 : Fin S).val : Nat) : Int)⟩]) ∧
        cstr (demoAddress 20) = some p ∧ cstr (t2 7) = some p ∧ t2 7 0 ≠ 0 ∧
        (∀ j : Fin S, j ≠ 7 → t2 j = demoFullTable j) :=
  ⟨⟨demoFullTable_full, isAddress_demoAddress 20⟩,
    unmount_then_mount_reuses_slot () demoFullTable 7 (demoAddress 20) [] demoFullTable_full
      (isAddress_demoAddress 20)⟩

/-- C4: for every sequence of MOUNT requests, each carrying any string (empty or not) in
its 40-byte reply-channel address field, and of UNMOUNT requests, each for the id of a
session mounted successfully earlier and not yet unmounted, handled by the server from
the empty session table: after any number `n` of them the run is defined and no session
id is held by two of the sessions active then; the active ids are indices in `[0, S)`.
A session is mounted successfully when the server answers an id other than `-1` on a
non-empty path. -/
theorem active_sessions_have_distinct_ids {σ : Type} (oc : OpCodes) (E : Engine σ) (fs : σ)
    (reqs : List Request) (n : Nat)
    (hadm : admissible oc E reqs ⟨emptyTable, [], fs⟩ [] = true)
    (haddr : ∀ r ∈ reqs, r.mountsString) :
    ∃ s act, sessionsAfter oc E (reqs.take n) ⟨emptyTable, [], fs⟩ [] = some (s, act) ∧
      act.Nodup ∧ ∀ id ∈ act, 0 ≤ id ∧ id < (S : Int) := by
  have h0 : SessionsInv emptyTable [] :=
    ⟨List.nodup_nil, fun _ h => absurd h (List.not_mem_nil _), fun k h => absurd rfl h⟩
  obtain ⟨t1, act1, hrun, hnd, hocc, _⟩ :=
    sessionsAfter_inv oc E fs (reqs.take n) emptyTable [] h0
      (admissible_take oc E reqs n _ _ hadm) (fun r hr => haddr r (List.mem_of_mem_take hr))
  refine ⟨_, act1, hrun, hnd, ?_⟩
  intro id hid
  obtain ⟨k, e, _⟩ := hocc id hid
  have hk : k.val < 20 := k.isLt
  subst e
  constructor <;> omega

/-- The demo run of seven requests, two of them with an empty address: the sessions
after all seven. -/
theorem active_sessions_have_distinct_ids_witness :
    (admissible opCodes1to7 nullEngine demoRequests ⟨emptyTable, [], ()⟩ [] = true ∧
        ∀ r ∈ demoRequests, r.mountsString) ∧
      ∃ s act, sessionsAfter opCodes1to7 nullEngine (demoRequests.take 7)
          ⟨emptyTable, [], ()⟩ [] = some (s, act) ∧
        act.Nodup ∧ ∀ id ∈ act, 0 ≤ id ∧ id < (S : Int) :=
  ⟨⟨by decide, demoRequests_mountsString⟩,
    active_sessions_have_distinct_ids opCodes1to7 nullEngine () demoRequests 7 (by decide)
      demoRequests_mountsString⟩

/-- C5 fails on the code: after a `tfs_mount` refused with `-1` the client has
`session_id = -1` and both pipes open, and each of the five stubs then writes its whole
request, with session id `-1`, into the server's pipe and stays blocked in `read`
instead of returning `-1`. -/
theorem stubs_without_session_write_requests :
    refusedClient.session_id = -1 ∧
    (tfs_open opCodes1to7 refusedClient (memOf (ascii "/f1")) 0).1.to_server =
      refusedClient.to_server ++
        [3, 0, 0, 0, 255, 255, 255, 255, 47, 102, 49, 0, 0, 0, 0, 0, 0, 0, 0, 0] ∧
    (tfs_open opCodes1to7 refusedClient (memOf (ascii "/f1")) 0).2 = none ∧
    (tfs_close opCodes1to7 refusedClient 3).1.to_server =
      refusedClient.to_server ++ [4, 0, 0, 0, 255, 255, 255, 255, 3, 0, 0, 0] ∧
    (tfs_close opCodes1to7 refusedClient 3).2 = none ∧
    (tfs_write opCodes1to7 refusedClient 3 (memOf (ascii "hello")) 5).1.to_server =
      refusedClient.to_server ++ [5, 0, 0, 0, 255, 255, 255, 255, 3, 0, 0, 0,
        5, 0, 0, 0, 0, 0, 0, 0, 104, 101, 108, 108, 111, 0, 0, 0] ∧
    (tfs_write opCodes1to7 refusedClient 3 (memOf (ascii "hello")) 5).2 = none ∧
    (tfs_read opCodes1to7 refusedClient 3 (memOf []) 5).1.to_server =
      refusedClient.to_server ++ [6, 0, 0, 0, 255, 255, 255, 255, 3, 0, 0, 0,
        5, 0, 0, 0, 0, 0, 0, 0, 0, 0, 0, 0, 0, 0, 0, 0] ∧
    (tfs_read opCodes1to7 refusedClient 3 (memOf []) 5).2 = none ∧
    (tfs_shutdown_after_all_closed opCodes1to7 refusedClient).1.to_server =
      refusedClient.to_server ++ [7, 0, 0, 0, 255, 255, 255, 255] ∧
    (tfs_shutdown_after_all_closed opCodes1to7 refusedClient).2 = none := by
  decide

/-- C6: for every client with an established session (`session_id != -1`), `tfs_unmount`
returns `0` and sets `session_id` to `-1`; a second `tfs_unmount` right after returns
`-1` and leaves the client as it was, so nothing more is sent to the server. -/
theorem unmount_twice_fails (oc : OpCodes) (c : Client) (h : c.session_id ≠ -1) :
    (tfs_unmount oc c).2 = 0 ∧ (tfs_unmount oc c).1.session_id = -1 ∧
      tfs_unmount oc (tfs_unmount oc c).1 = ((tfs_unmount oc c).1, -1) ∧
      (tfs_unmount oc (tfs_unmount oc c).1).1.to_server = (tfs_unmount oc c).1.to_server := by
  have h1 : tfs_unmount oc c =
      ({ (c.write_tx (encodeInt oc.TFS_OP_CODE_UNMOUNT)).write_tx
            (encodeInt (c.write_tx (encodeInt oc.TFS_OP_CODE_UNMOUNT)).session_id) with
          rx_open := false, tx_open := false, session_id := -1 }, 0) := by
    simp only [tfs_unmount, if_neg h]
  have h2 : (tfs_unmount oc c).1.session_id = -1 := by rw [h1]
  have h3 : tfs_unmount oc (tfs_unmount oc c).1 = ((tfs_unmount oc c).1, -1) := by
    generalize (tfs_unmount oc c).1 = c1 at h2 ⊢
    simp only [tfs_unmount, if_pos h2]
  refine ⟨by rw [h1], h2, h3, by rw [h3]⟩

/-- A client with session 0 unmounts twice. -/
theorem unmount_twice_fails_witness :
    mountedClient.session_id ≠ -1 ∧
      ((tfs_unmount opCodes1to7 mountedClient).2 = 0 ∧
        (tfs_unmount opCodes1to7 mountedClient).1.session_id = -1 ∧
        tfs_unmount opCodes1to7 (tfs_unmount opCodes1to7 mountedClient).1 =
          ((tfs_unmount opCodes1to7 mountedClient).1, -1) ∧
        (tfs_unmount opCodes1to7 (tfs_unmount opCodes1to7 mountedClient).1).1.to_server =
          (tfs_unmount opCodes1to7 mountedClient).1.to_server) :=
  ⟨by decide, unmount_twice_fails opCodes1to7 mountedClient (by decide)⟩

/-- C7 fails for UNMOUNT: with slot 0 holding the address `/cA`, the iteration that
handles the UNMOUNT request of session 0 writes no reply. -/
theorem unmount_request_gets_no_reply :
    (main_loop_iteration opCodes1to7 nullEngine
      ⟨demoTable, (Request.UNMOUNT 0).bytes opCodes1to7, ()⟩).map (fun out => out.2) =
      some [] := by
  decide

/-- C7, as amended: for every request whose op code is one of OPEN, CLOSE, WRITE, READ and
SHUTDOWN_AFTER_ALL_CLOSED, whose session id lies in `[0, S)` and whose slot holds a
string, one iteration of the dispatch loop writes exactly one scalar result (an `int`
or an `ssize_t`) to the channel registered in that slot, consumes the request and leaves
the session table as it was. -/
theorem dispatch_replies_once {σ : Type} (oc : OpCodes) (E : Engine σ)
    (t : SessionTable) (fs : σ) (r : Request) (k : Fin S) (rest : List Byte)
    (hid : r.session_id = some (k.val : Int)) (hcall : r.isUnmount = false)
    (hslot : HasNul (t k)) :
    ∃ s1 p data,
      main_loop_iteration oc E ⟨t, r.bytes oc ++ rest, fs⟩ = some (s1, [⟨p, data⟩]) ∧
      cstr (t k) = some p ∧ s1.rx = rest ∧ s1.session_ids = t ∧
      ((∃ res : Int, data = encodeInt res) ∨ (∃ res : Int, data = encodeSSize res)) := by
  cases r with
  | MOUNT a => simp [Request.session_id] at hid
  | UNMOUNT id =>
    simp [Request.isUnmount] at hcall
  | OPEN id filename flags =>
    simp only [Request.session_id, Option.some.injEq] at hid
    subst hid
    obtain ⟨p, hp, ho⟩ := openClientPipe_spec t k
      (slotBytes filename ++ (encodeInt flags ++ rest)) fs hslot
    refine ⟨⟨t, rest, (E.tfs_open fs filename (decodeInt (encodeInt flags))).1⟩, p, _, ?_, hp,
      rfl, rfl, Or.inl ⟨(E.tfs_open fs filename (decodeInt (encodeInt flags))).2, rfl⟩⟩
    simp only [Request.bytes, List.append_assoc, main_loop_OPEN, tfs_open_handler, ho,
      readArray_slotBytes, readInt_append _ _ (length_encodeInt flags)]
  | CLOSE id fhandle =>
    simp only [Request.session_id, Option.some.injEq] at hid
    subst hid
    obtain ⟨p, hp, ho⟩ := openClientPipe_spec t k (encodeInt fhandle ++ rest) fs hslot
    refine ⟨⟨t, rest, (E.tfs_close fs (decodeInt (encodeInt fhandle))).1⟩, p, _, ?_, hp,
      rfl, rfl, Or.inl ⟨(E.tfs_close fs (decodeInt (encodeInt fhandle))).2, rfl⟩⟩
    simp only [Request.bytes, List.append_assoc, main_loop_CLOSE, tfs_close_handler, ho,
      readInt_append _ _ (length_encodeInt fhandle)]
  | WRITE id fhandle len buffer =>
    simp only [Request.session_id, Option.some.injEq] at hid
    subst hid
    obtain ⟨p, hp, ho⟩ := openClientPipe_spec t k
      (encodeInt fhandle ++ (encodeSize len ++ (encodeSize buffer ++ rest))) fs hslot
    refine ⟨⟨t, rest, (E.tfs_write fs (decodeInt (encodeInt fhandle))
        (decodeSize (encodeSize buffer)) (decodeSize (encodeSize len))).1⟩, p, _, ?_, hp,
      rfl, rfl, Or.inr ⟨(E.tfs_write fs (decodeInt (encodeInt fhandle))
        (decodeSize (encodeSize buffer)) (decodeSize (encodeSize len))).2, rfl⟩⟩
    simp only [Request.bytes, List.append_assoc, main_loop_WRITE, tfs_write_handler, ho,
      readInt_append _ _ (length_encodeInt fhandle),
      readSize_append _ _ (length_encodeSize len),
      readSize_append _ _ (length_encodeSize buffer)]
  | READ id fhandle len buffer =>
    simp only [Request.session_id, Option.some.injEq] at hid
    subst hid
    obtain ⟨p, hp, ho⟩ := openClientPipe_spec t k
      (encodeInt fhandle ++ (encodeSize len ++ (encodeSize buffer ++ rest))) fs hslot
    refine ⟨⟨t, rest, (E.tfs_read fs (decodeInt (encodeInt fhandle))
        (decodeSize (encodeSize buffer)) (decodeSize (encodeSize len))).1⟩, p, _, ?_, hp,
      rfl, rfl, Or.inr ⟨(E.tfs_read fs (decodeInt (encodeInt fhandle))
        (decodeSize (encodeSize buffer)) (decodeSize (encodeSize len))).2, rfl⟩⟩
    simp only [Request.bytes, List.append_assoc, main_loop_READ, tfs_read_handler, ho,
      readInt_append _ _ (length_encodeInt fhandle),
      readSize_append _ _ (length_encodeSize len),
      readSize_append _ _ (length_encodeSize buffer)]
  | SHUTDOWN_AFTER_ALL_CLOSED id =>
    simp only [Request.session_id, Option.some.injEq] at hid
    subst hid
    obtain ⟨p, hp, ho⟩ := openClientPipe_spec t k rest fs hslot
    refine ⟨⟨t, rest, (E.tfs_destroy_after_all_closed fs).1⟩, p, _, ?_, hp, rfl, rfl,
      Or.inl ⟨(E.tfs_destroy_after_all_closed fs).2, rfl⟩⟩
    simp only [Request.bytes, List.append_assoc, main_loop_SHUTDOWN,
      tfs_shutdown_after_all_closed_handler, ho]

/-- Session 0, registered with `/cA`, closes the handle 3. -/
theorem dispatch_replies_once_witness :
    ((Request.CLOSE 0 3).session_id = some (((0 : Fin S).val : Nat) : Int) ∧
        (Request.CLOSE 0 3).isUnmount = false ∧ HasNul (demoTable 0)) ∧
      ∃ s1 p data,
        main_loop_iteration opCodes1to7 nullEngine
          ⟨demoTable, (Request.CLOSE 0 3).bytes opCodes1to7 ++ [], ()⟩ =
            some (s1, [⟨p, data⟩]) ∧
        cstr (demoTable 0) = some p ∧ s1.rx = [] ∧ s1.session_ids = demoTable ∧
        ((∃ res : Int, data = encodeInt res) ∨ (∃ res : Int, data = encodeSSize res)) :=
  ⟨⟨rfl, rfl, ⟨3, rfl⟩⟩,
    dispatch_replies_once opCodes1to7 nullEngine demoTable () (Request.CLOSE 0 3) 0 [] rfl rfl
      ⟨3, rfl⟩⟩

/-- C8 fails on the code: for a 16-byte buffer `1, 2, ..., 16` and `len = 16`, the WRITE
request `tfs_write` puts in the server's pipe ends with the first 8 bytes of the buffer
only, and `tfs_write_handler` hands the engine those 8 bytes as a pointer value,
`0x0807060504030201`, with `len = 16`. -/
theorem tfs_write_sends_eight_bytes :
    (tfs_write opCodes1to7 mountedClient 3 (fun k => Fin.ofNat (k + 1)) 16).1.to_server =
      [5, 0, 0, 0, 0, 0, 0, 0, 3, 0, 0, 0, 16, 0, 0, 0, 0, 0, 0, 0, 1, 2, 3, 4, 5, 6, 7, 8] ∧
    (tfs_write opCodes1to7 mountedClient 3 (fun k => Fin.ofNat (k + 1)) 16).1.to_server ≠
      encodeInt 5 ++ encodeInt 0 ++ encodeInt 3 ++ encodeSize 16 ++
        memBytes (fun k => Fin.ofNat (k + 1)) 16 ∧
    (main_loop_iteration opCodes1to7 loggingEngine
      ⟨demoTable,
        (tfs_write opCodes1to7 mountedClient 3 (fun k => Fin.ofNat (k + 1)) 16).1.to_server,
        []⟩).map (fun out => (out.1.fs, out.1.rx)) =
      some ([(3, 0x0807060504030201, 16)], []) := by
  decide

/-- C9 fails on the code: with session 0 established and the server answering the OPEN
request with the handle `1` (or `7`), `tfs_open` returns `0`, not the handle; it returns
`-1` when the answer is `-1`. -/
theorem tfs_open_drops_the_handle :
    (tfs_open opCodes1to7 { mountedClient with from_server := encodeInt 1 }
      (memOf (ascii "/f1")) 0).2 = some 0 ∧
    (tfs_open opCodes1to7 { mountedClient with from_server := encodeInt 7 }
      (memOf (ascii "/f1")) 0).2 = some 0 ∧
    (tfs_open opCodes1to7 { mountedClient with from_server := encodeInt (-1) }
      (memOf (ascii "/f1")) 0).2 = some (-1) := by
  decide

/-- C10 fails on the code: for the client path `/tmp/c1`, held at the pointer value
`0x7ffd12345678`, the MOUNT request of `tfs_mount` carries the 8 bytes of the pointer,
and the address `tfs_mount_handler` stores in slot 0 is the string of those bytes,
`78 56 34 12 fd 7f`, not the path. -/
theorem mount_request_carries_the_pointer :
    mountedAddress opCodes1to7 nullEngine () okEnv 0x7ffd12345678 (ascii "/tmp/c1") =
      some [0x78, 0x56, 0x34, 0x12, 0xfd, 0x7f] ∧
    ascii "/tmp/c1" = [47, 116, 109, 112, 47, 99, 49] ∧
    mountedAddress opCodes1to7 nullEngine () okEnv 0x7ffd12345678 (ascii "/tmp/c1") ≠
      some (ascii "/tmp/c1") := by
  decide

end TecnicoFS
